import Mathlib

set_option maxHeartbeats 1000000
set_option maxRecDepth 100000

/-!
Verification of the resume-tailor rendering pipeline
(`backend/app/resume/resume_template_renderer.py`,
`backend/app/resume/resume_creator_overleaf.py`,
`backend/app/resume/resume_creator_pdf.py`) against its specification.

Python strings are embedded as `List Char`.  Optional strings are
`Option (List Char)`; Python's `v or ""` becomes `Option.getD v []`.
-/

abbrev Str := List Char

/-- Convert a Lean string literal to the `List Char` representation. -/
def cs (x : String) : Str := x.data

/-- Python `str.strip()` whitespace set (space, tab, LF, CR, VT, FF).
Unicode whitespace is not exercised by this development. -/
def isPyWS (c : Char) : Bool :=
  ([32, 9, 10, 13, 11, 12] : List Nat).contains c.toNat

/-- Left part of Python `str.strip()`. -/
def trimLeft (l : Str) : Str := l.dropWhile isPyWS

/-- Right part of Python `str.strip()`. -/
def trimRight (l : Str) : Str := (l.reverse.dropWhile isPyWS).reverse

/-- Python `str.strip()` with no arguments. -/
def trimWS (l : Str) : Str := trimRight (trimLeft l)

/-- Python `str.find(pat, i)` restricted to a suffix: first index of `pat`
in `l` (`none` when absent).  Used only with non-empty patterns, where it
agrees with CPython. -/
def findSub (pat : Str) : Str → Option Nat
  | [] => none
  | c :: rest =>
    if pat.isPrefixOf (c :: rest) then some 0
    else (findSub pat rest).map (· + 1)

/-- `pat` occurs in `s` starting at index `p`. -/
def occursAtB (pat s : Str) (p : Nat) : Bool := pat.isPrefixOf (s.drop p)

/-- Whether `pat` occurs anywhere in `s` (non-empty `pat`). -/
def containsSub (pat s : Str) : Bool := (findSub pat s).isSome

/-! ### Inline emphasis markup (`\b ... b\`)

`resume_template_renderer._h_bold_markers` and
`resume_creator_overleaf._escape_latex_with_bold_markers` share one scanning
algorithm; it is embedded once as the span parser `spans` below, and each
converter renders the parsed spans in its output format.  Each unfolding of
`spans` is one iteration of the Python `while` loop, emitting into `out`.
-/

/-- `str.replace("\\\\b", "\\b")`: left-to-right, non-overlapping, as in
CPython `str.replace` for this fixed 3-character pattern. -/
def normDoubleOpen : Str → Str
  | '\\' :: '\\' :: 'b' :: rest => '\\' :: 'b' :: normDoubleOpen rest
  | c :: rest => c :: normDoubleOpen rest
  | [] => []

/-- `str.replace("b\\\\", "b\\")`. -/
def normDoubleClose : Str → Str
  | 'b' :: '\\' :: '\\' :: rest => 'b' :: '\\' :: normDoubleClose rest
  | c :: rest => c :: normDoubleClose rest
  | [] => []

/-- The token normalisation both converters apply first:
`s.replace("\\\\b", "\\b").replace("b\\\\", "b\\")`. -/
def normalizeTokens (v : Str) : Str := normDoubleClose (normDoubleOpen v)

/-- The emphasis open token `\b`. -/
def OPEN : Str := ['\\', 'b']

/-- The emphasis close token `b\`. -/
def CLOSE : Str := ['b', '\\']

/-- Fuelled emphasis scanner; one fuel unit per `while`-loop iteration of the
Python scanners.  Each iteration consumes at least one character, so fuel
`s.length` always suffices (`spansF_congr`). -/
def spansF : Nat → Str → List (Bool × Str)
  | 0, _ => []
  | n + 1, s =>
    match findSub OPEN s with
    | none => if s.isEmpty then [] else [(false, s)]
    | some p =>
      let rest := s.drop (p + 2)
      match findSub CLOSE rest with
      | none => (if 0 < p then [(false, s.take p)] else []) ++ [(false, s.drop p)]
      | some q =>
        (if 0 < p then [(false, s.take p)] else []) ++
          [(true, rest.take q)] ++ spansF n (rest.drop (q + 2))

/-- The emphasis span parser shared by both converters: the sequence of
`(isBold, text)` chunks the Python loops append to `out`. -/
def spans (s : Str) : List (Bool × Str) := spansF s.length s

/-- Python `html.escape` (quote=True) on one character.  The source applies
five sequential `str.replace` calls; since no replacement string contains a
character replaced by a later call, this per-character map is the same
function. -/
def hEscapeChar (c : Char) : Str :=
  if c = '&' then cs ("&amp;")
  else if c = '<' then cs ("&lt;")
  else if c = '>' then cs ("&gt;")
  else if c = '"' then cs ("&quot;")
  else if c.toNat = 39 then cs ("&#x27;")
  else [c]

/-- Python `html.escape` (quote=True). -/
def hEscape (l : Str) : Str := l.flatMap hEscapeChar

/-- `resume_creator_overleaf._escape_latex` on one character.  The source is
nine sequential `str.replace` calls; no replacement string contains a
character targeted by a later call, so the composition equals this
per-character map. -/
def latexEscChar (c : Char) : Str :=
  if c = '&' then cs ("\\&")
  else if c = '%' then cs ("\\%")
  else if c = '$' then cs ("\\$")
  else if c = '#' then cs ("\\#")
  else if c = '_' then cs ("\\_")
  else if c = '\x7b' then cs ("\\\x7b")
  else if c = '\x7d' then cs ("\\\x7d")
  else if c = '~' then cs ("\\textasciitilde\x7b\x7d")
  else if c = '^' then cs ("\\textasciicircum\x7b\x7d")
  else [c]

/-- Body of `resume_creator_overleaf._escape_latex` on a plain string. -/
def escLatex (l : Str) : Str := l.flatMap latexEscChar

/-- `resume_creator_overleaf._escape_latex` (empty/None input yields ""). -/
def _escape_latex (v : Option Str) : Str := escLatex (v.getD [])

/-- HTML rendering of parsed spans: plain spans are HTML-escaped, bold spans
are wrapped in `<strong>` around the escaped interior (the `out.append`s of
`_h_bold_markers`). -/
def renderHtmlSpans (sp : List (Bool × Str)) : Str :=
  sp.flatMap (fun bt =>
    if bt.1 then cs ("<strong>") ++ hEscape bt.2 ++ cs ("</strong>") else hEscape bt.2)

/-- LaTeX rendering of parsed spans (the `out.append`s of
`_escape_latex_with_bold_markers`). -/
def renderLatexSpans (sp : List (Bool × Str)) : Str :=
  sp.flatMap (fun bt =>
    if bt.1 then cs ("\\textbf\x7b") ++ escLatex bt.2 ++ cs ("\x7d") else escLatex bt.2)

/-- `resume_template_renderer._h_bold_markers`: normalise doubled tokens,
scan, render to HTML, and `.strip()` the joined result. -/
def _h_bold_markers (v : Option Str) : Str :=
  trimWS (renderHtmlSpans (spans (normalizeTokens (v.getD []))))

/-- `resume_creator_overleaf._escape_latex_with_bold_markers` (no final
strip). -/
def _escape_latex_with_bold_markers (v : Option Str) : Str :=
  renderLatexSpans (spans (normalizeTokens (v.getD [])))

/-- Reinsert the emphasis tokens around bold spans: concatenating this over
the parsed spans should rebuild the scanned string. -/
def unparse (sp : List (Bool × Str)) : Str :=
  sp.flatMap (fun bt => if bt.1 then OPEN ++ bt.2 ++ CLOSE else bt.2)

/-! ### Basic lemmas about `findSub` and the scanner -/

theorem isPrefixOf_iff_exists (p : Str) : ∀ l : Str, p.isPrefixOf l = true ↔ ∃ t, l = p ++ t := by
  induction p with
  | nil => intro l; simp [List.isPrefixOf]
  | cons a as ih =>
    intro l
    cases l with
    | nil => simp [List.isPrefixOf]
    | cons b bs =>
      simp only [List.isPrefixOf, Bool.and_eq_true, beq_iff_eq, ih bs, List.cons_append,
        List.cons.injEq]
      constructor
      · rintro ⟨rfl, t, rfl⟩; exact ⟨t, rfl, rfl⟩
      · rintro ⟨t, rfl, rfl⟩; exact ⟨rfl, t, rfl⟩

theorem isPrefixOf_length_le {p l : Str} (h : p.isPrefixOf l = true) : p.length ≤ l.length := by
  rcases (isPrefixOf_iff_exists p l).mp h with ⟨t, rfl⟩
  simp

theorem findSub_some_occ {pat : Str} : ∀ {s : Str} {i : Nat},
    findSub pat s = some i → pat.isPrefixOf (s.drop i) = true := by
  intro s
  induction s with
  | nil => intro i h; simp [findSub] at h
  | cons c rest ih =>
    intro i h
    cases hI : pat.isPrefixOf (c :: rest) with
    | true =>
      simp only [findSub, hI, if_true] at h
      cases h; simpa using hI
    | false =>
      simp only [findSub, hI, Bool.false_eq_true, if_false] at h
      rcases hr : findSub pat rest with _ | j
      · rw [hr] at h; simp at h
      · rw [hr] at h
        simp only [Option.map_some'] at h
        cases h
        simpa [List.drop_succ_cons] using ih hr

theorem findSub_min {pat : Str} : ∀ {s : Str} {i : Nat},
    findSub pat s = some i → ∀ j, pat.isPrefixOf (s.drop j) = true → i ≤ j := by
  intro s
  induction s with
  | nil => intro i h; simp [findSub] at h
  | cons c rest ih =>
    intro i h j hj
    cases hI : pat.isPrefixOf (c :: rest) with
    | true =>
      simp only [findSub, hI, if_true] at h
      cases h; exact Nat.zero_le j
    | false =>
      simp only [findSub, hI, Bool.false_eq_true, if_false] at h
      rcases hr : findSub pat rest with _ | k
      · rw [hr] at h; simp at h
      · rw [hr] at h
        simp only [Option.map_some'] at h
        cases h
        cases j with
        | zero =>
          rw [List.drop_zero] at hj
          rw [hj] at hI; cases hI
        | succ j' =>
          have := ih hr j' (by simpa [List.drop_succ_cons] using hj)
          omega

theorem findSub_none_no_occ {pat : Str} (hpat : pat ≠ []) : ∀ {s : Str},
    findSub pat s = none → ∀ j, pat.isPrefixOf (s.drop j) = false := by
  intro s
  induction s with
  | nil =>
    intro _ j
    cases pat with
    | nil => exact absurd rfl hpat
    | cons a as => simp [List.isPrefixOf]
  | cons c rest ih =>
    intro h j
    cases hI : pat.isPrefixOf (c :: rest) with
    | true => simp only [findSub, hI, if_true] at h; cases h
    | false =>
      simp only [findSub, hI, Bool.false_eq_true, if_false, Option.map_eq_none'] at h
      cases j with
      | zero => simpa using hI
      | succ j' => simpa [List.drop_succ_cons] using ih h j'

theorem findSub_of_occ {pat s : Str} {j : Nat} (hpat : pat ≠ [])
    (h : pat.isPrefixOf (s.drop j) = true) :
    ∃ i, findSub pat s = some i ∧ i ≤ j := by
  rcases hf : findSub pat s with _ | i
  · have := findSub_none_no_occ hpat hf j
    rw [h] at this; cases this
  · exact ⟨i, rfl, findSub_min hf j h⟩

theorem findSub_bound {pat s : Str} {i : Nat} (hpat : pat ≠ [])
    (h : findSub pat s = some i) : i + pat.length ≤ s.length := by
  have hp := findSub_some_occ h
  have hlen := isPrefixOf_length_le hp
  rw [List.length_drop] at hlen
  have hpos : 0 < pat.length := List.length_pos.mpr hpat
  omega

theorem occursAtB_false_of_len {pat s : Str} {p : Nat} (hpat : pat ≠ [])
    (h : s.length < p + pat.length) : occursAtB pat s p = false := by
  cases hI : occursAtB pat s p with
  | false => rfl
  | true =>
    have htrue : pat.isPrefixOf (s.drop p) = true := hI
    have hlen := isPrefixOf_length_le htrue
    rw [List.length_drop] at hlen
    have hpos : 0 < pat.length := List.length_pos.mpr hpat
    omega

/-- Splitting a list at a located pattern occurrence. -/
theorem drop_decomp_of_occ {pat s : Str} {p : Nat}
    (h : pat.isPrefixOf (s.drop p) = true) :
    s.drop p = pat ++ s.drop (p + pat.length) := by
  rcases (isPrefixOf_iff_exists pat (s.drop p)).mp h with ⟨t, ht⟩
  have h2 : s.drop (p + pat.length) = t := by
    rw [← List.drop_drop, ht, List.drop_left]
  rw [h2, ht]

theorem OPEN_ne_nil : OPEN ≠ [] := by simp [OPEN]

theorem CLOSE_ne_nil : CLOSE ≠ [] := by simp [CLOSE]

theorem OPEN_length : OPEN.length = 2 := rfl

theorem CLOSE_length : CLOSE.length = 2 := rfl

theorem spansF_nil : ∀ n, spansF n [] = [] := by
  intro n
  cases n with
  | zero => rfl
  | succ n => simp [spansF, findSub]

theorem spansF_congr : ∀ n m (s : Str), s.length ≤ n → s.length ≤ m →
    spansF n s = spansF m s := by
  intro n
  induction n with
  | zero =>
    intro m s hn _
    have hs : s = [] := List.eq_nil_of_length_eq_zero (Nat.le_zero.mp hn)
    subst hs
    rw [spansF_nil, spansF_nil]
  | succ n ih =>
    intro m s hn hm
    cases m with
    | zero =>
      have hs : s = [] := List.eq_nil_of_length_eq_zero (Nat.le_zero.mp hm)
      subst hs
      rw [spansF_nil, spansF_nil]
    | succ m' =>
      rcases hO : findSub OPEN s with _ | p
      · simp only [spansF, hO]
      · rcases hC : findSub CLOSE (s.drop (p + 2)) with _ | q
        · simp only [spansF, hO, hC]
        · have hOb := findSub_bound OPEN_ne_nil hO
          rw [OPEN_length] at hOb
          have hCb := findSub_bound CLOSE_ne_nil hC
          rw [CLOSE_length, List.length_drop] at hCb
          have hlen : ((s.drop (p + 2)).drop (q + 2)).length ≤ n ∧
              ((s.drop (p + 2)).drop (q + 2)).length ≤ m' := by
            rw [List.length_drop, List.length_drop]
            omega
          simp only [spansF, hO, hC]
          rw [ih m' _ hlen.1 hlen.2]

theorem spans_nil_eq : spans [] = [] := rfl

theorem spans_eq_no_open {s : Str} (h : findSub OPEN s = none) (hs : s ≠ []) :
    spans s = [(false, s)] := by
  cases s with
  | nil => exact absurd rfl hs
  | cons c t => simp [spans, spansF, h]

theorem spans_eq_unterminated {s : Str} {p : Nat} (hO : findSub OPEN s = some p)
    (hC : findSub CLOSE (s.drop (p + 2)) = none) :
    spans s = (if 0 < p then [(false, s.take p)] else []) ++ [(false, s.drop p)] := by
  cases s with
  | nil => simp [findSub] at hO
  | cons c t => simp only [spans, List.length_cons, spansF, hO, hC]

theorem spans_eq_bold {s : Str} {p q : Nat} (hO : findSub OPEN s = some p)
    (hC : findSub CLOSE (s.drop (p + 2)) = some q) :
    spans s = (if 0 < p then [(false, s.take p)] else []) ++
      [(true, (s.drop (p + 2)).take q)] ++ spans ((s.drop (p + 2)).drop (q + 2)) := by
  cases s with
  | nil => simp [findSub] at hO
  | cons c t =>
    have hOb := findSub_bound OPEN_ne_nil hO
    rw [OPEN_length] at hOb
    have hCb := findSub_bound CLOSE_ne_nil hC
    rw [CLOSE_length, List.length_drop] at hCb
    have hlen : ((((c :: t).drop (p + 2)).drop (q + 2)).length ≤ t.length) ∧
        ((((c :: t).drop (p + 2)).drop (q + 2)).length ≤
          (((c :: t).drop (p + 2)).drop (q + 2)).length) := by
      constructor
      · rw [List.length_drop, List.length_drop]
        simp only [List.length_cons] at hOb hCb ⊢
        omega
      · exact le_rfl
    simp only [spans, List.length_cons, spansF, hO, hC]
    rw [spansF_congr t.length _ _ hlen.1 hlen.2]

theorem unparse_append (a b : List (Bool × Str)) :
    unparse (a ++ b) = unparse a ++ unparse b := by
  simp [unparse]

theorem unparse_plain (t : Str) : unparse [(false, t)] = t := by
  simp [unparse]

theorem unparse_bold (t : Str) : unparse [(true, t)] = OPEN ++ t ++ CLOSE := by
  simp [unparse]

theorem unparse_prefix_emit (p : Nat) (s : Str) :
    unparse (if 0 < p then [(false, s.take p)] else []) = s.take p := by
  by_cases hp : 0 < p
  · simp [unparse, hp]
  · have : p = 0 := by omega
    subst this
    simp [unparse]

/-- The scanned spans rebuild the scanned string once the emphasis tokens are
reinserted around bold spans: no character is lost, duplicated or reordered. -/
theorem spans_unparse : ∀ (s : Str), unparse (spans s) = s := by
  suffices h : ∀ n (s : Str), s.length ≤ n → unparse (spans s) = s by
    intro s; exact h s.length s le_rfl
  intro n
  induction n with
  | zero =>
    intro s hs
    have : s = [] := List.eq_nil_of_length_eq_zero (Nat.le_zero.mp hs)
    subst this; rfl
  | succ n ih =>
    intro s hs
    rcases hO : findSub OPEN s with _ | p
    · by_cases hnil : s = []
      · subst hnil; rfl
      · rw [spans_eq_no_open hO hnil, unparse_plain]
    · rcases hC : findSub CLOSE (s.drop (p + 2)) with _ | q
      · rw [spans_eq_unterminated hO hC, unparse_append, unparse_prefix_emit,
          unparse_plain, List.take_append_drop]
      · have hOb := findSub_bound OPEN_ne_nil hO
        rw [OPEN_length] at hOb
        have hCb := findSub_bound CLOSE_ne_nil hC
        rw [CLOSE_length, List.length_drop] at hCb
        have hrec : unparse (spans ((s.drop (p + 2)).drop (q + 2))) =
            (s.drop (p + 2)).drop (q + 2) := by
          apply ih
          rw [List.length_drop, List.length_drop]
          omega
        have hd1 : s.drop p = OPEN ++ s.drop (p + 2) := by
          have := drop_decomp_of_occ (findSub_some_occ hO)
          rwa [OPEN_length] at this
        have hd2 : (s.drop (p + 2)).drop q = CLOSE ++ (s.drop (p + 2)).drop (q + 2) := by
          have := drop_decomp_of_occ (findSub_some_occ hC)
          rwa [CLOSE_length] at this
        have hmain2 : (OPEN ++ (s.drop (p + 2)).take q ++ CLOSE) ++
            (s.drop (p + 2)).drop (q + 2) = s.drop p := by
          rw [List.append_assoc, List.append_assoc, ← hd2, List.take_append_drop, ← hd1]
        rw [spans_eq_bold hO hC, unparse_append, unparse_append, unparse_prefix_emit,
          unparse_bold, hrec, List.append_assoc, hmain2, List.take_append_drop]

theorem drop_drop_add (s : Str) (k j : Nat) : (s.drop k).drop j = s.drop (k + j) := by
  rw [List.drop_drop]

theorem occursAtB_shift (pat s : Str) (k j : Nat) :
    occursAtB pat (s.drop k) j = occursAtB pat s (k + j) := by
  unfold occursAtB
  rw [drop_drop_add]

/-- Core of the unterminated-emphasis property: if an open token occurs at
`p` and no close token occurs at any index `≥ p - 1` (so no close token
follows or overlaps the open token), the scanner's final span is a plain span
covering the whole tail from some index `p' ≤ p`. -/
theorem spans_dangling : ∀ (s : Str) (p : Nat),
    occursAtB OPEN s p = true →
    (∀ q, p ≤ q + 1 → occursAtB CLOSE s q = false) →
    ∃ p', p' ≤ p ∧ ∃ pre, spans s = pre ++ [(false, s.drop p')] := by
  suffices h : ∀ n (s : Str), s.length ≤ n → ∀ p : Nat,
      occursAtB OPEN s p = true →
      (∀ q, p ≤ q + 1 → occursAtB CLOSE s q = false) →
      ∃ p', p' ≤ p ∧ ∃ pre, spans s = pre ++ [(false, s.drop p')] by
    intro s; exact h s.length s le_rfl
  intro n
  induction n with
  | zero =>
    intro s hs p hop _
    have hnil : s = [] := List.eq_nil_of_length_eq_zero (Nat.le_zero.mp hs)
    subst hnil
    have := occursAtB_false_of_len OPEN_ne_nil (s := []) (p := p) (by simp [OPEN_length])
    rw [hop] at this; cases this
  | succ n ih =>
    intro s hs p hop hcl
    rcases hO : findSub OPEN s with _ | p₁
    · have := findSub_none_no_occ OPEN_ne_nil hO p
      rw [occursAtB] at hop
      rw [hop] at this; cases this
    · have hp₁le : p₁ ≤ p := findSub_min hO p hop
      rcases hC : findSub CLOSE (s.drop (p₁ + 2)) with _ | q
      · exact ⟨p₁, hp₁le, (if 0 < p₁ then [(false, s.take p₁)] else []),
          spans_eq_unterminated hO hC⟩
      · have hOb := findSub_bound OPEN_ne_nil hO
        rw [OPEN_length] at hOb
        have hCb := findSub_bound CLOSE_ne_nil hC
        rw [CLOSE_length, List.length_drop] at hCb
        -- the located close token occurs at absolute index p₁ + 2 + q
        have hcocc : occursAtB CLOSE s (p₁ + 2 + q) = true := by
          rw [← occursAtB_shift]
          exact findSub_some_occ hC
        -- by hypothesis it must lie strictly before the open at p
        have hplarge : p₁ + q + 4 ≤ p := by
          by_contra hcon
          have := hcl (p₁ + 2 + q) (by omega)
          rw [hcocc] at this; cases this
        -- transfer the hypotheses to the suffix after the close token
        have hs' : ((s.drop (p₁ + 2)).drop (q + 2)) = s.drop (p₁ + q + 4) := by
          rw [drop_drop_add]
          congr 1
          omega
        have hop' : occursAtB OPEN ((s.drop (p₁ + 2)).drop (q + 2)) (p - (p₁ + q + 4)) = true := by
          rw [hs', occursAtB_shift]
          have : p₁ + q + 4 + (p - (p₁ + q + 4)) = p := by omega
          rw [this]
          exact hop
        have hcl' : ∀ q₂, p - (p₁ + q + 4) ≤ q₂ + 1 →
            occursAtB CLOSE ((s.drop (p₁ + 2)).drop (q + 2)) q₂ = false := by
          intro q₂ hq₂
          rw [hs', occursAtB_shift]
          exact hcl (p₁ + q + 4 + q₂) (by omega)
        have hlen' : ((s.drop (p₁ + 2)).drop (q + 2)).length ≤ n := by
          rw [List.length_drop, List.length_drop]
          omega
        rcases ih _ hlen' _ hop' hcl' with ⟨p₂, hp₂le, pre₂, hsp⟩
        refine ⟨p₁ + q + 4 + p₂, by omega,
          (if 0 < p₁ then [(false, s.take p₁)] else []) ++
            [(true, (s.drop (p₁ + 2)).take q)] ++ pre₂, ?_⟩
        rw [spans_eq_bold hO hC, hsp, hs', drop_drop_add]
        simp [List.append_assoc]

theorem renderHtmlSpans_append (a b : List (Bool × Str)) :
    renderHtmlSpans (a ++ b) = renderHtmlSpans a ++ renderHtmlSpans b := by
  simp [renderHtmlSpans]

theorem renderHtmlSpans_plain (t : Str) : renderHtmlSpans [(false, t)] = hEscape t := by
  simp [renderHtmlSpans]

theorem renderLatexSpans_append (a b : List (Bool × Str)) :
    renderLatexSpans (a ++ b) = renderLatexSpans a ++ renderLatexSpans b := by
  simp [renderLatexSpans]

theorem renderLatexSpans_plain (t : Str) : renderLatexSpans [(false, t)] = escLatex t := by
  simp [renderLatexSpans]

/-- C1 (amended).  For every input string whose token-normalised form has an
open token at index `p` with no close-token occurrence at any index `≥ p - 1`
(no close token following or overlapping the open token), the scanner ends
with a single plain span covering the tail from some `p' ≤ p`, and both
converters emit that tail as escaped literal text (no bold construct), with
no error. -/
theorem c1_unterminated_literal (v : Str) (p : Nat)
    (hop : occursAtB OPEN (normalizeTokens v) p = true)
    (hcl : ∀ q, p ≤ q + 1 → occursAtB CLOSE (normalizeTokens v) q = false) :
    ∃ p', p' ≤ p ∧ ∃ pre,
      spans (normalizeTokens v) = pre ++ [(false, (normalizeTokens v).drop p')] ∧
      _h_bold_markers (some v) =
        trimWS (renderHtmlSpans pre ++ hEscape ((normalizeTokens v).drop p')) ∧
      _escape_latex_with_bold_markers (some v) =
        renderLatexSpans pre ++ escLatex ((normalizeTokens v).drop p') := by
  rcases spans_dangling (normalizeTokens v) p hop hcl with ⟨p', hle, pre, hsp⟩
  refine ⟨p', hle, pre, hsp, ?_, ?_⟩
  · rw [_h_bold_markers]
    simp only [Option.getD_some]
    rw [hsp, renderHtmlSpans_append, renderHtmlSpans_plain]
  · rw [_escape_latex_with_bold_markers]
    simp only [Option.getD_some]
    rw [hsp, renderLatexSpans_append, renderLatexSpans_plain]

/-- Witness for C1 at the concrete input `"xy\bcd"` (open token at index 2,
no close token anywhere). -/
theorem c1_unterminated_literal_witness :
    occursAtB OPEN (normalizeTokens (cs ("xy\\bcd"))) 2 = true ∧
    (∃ p', p' ≤ 2 ∧ ∃ pre,
      spans (normalizeTokens (cs ("xy\\bcd"))) =
        pre ++ [(false, (normalizeTokens (cs ("xy\\bcd"))).drop p')] ∧
      _h_bold_markers (some (cs ("xy\\bcd"))) =
        trimWS (renderHtmlSpans pre ++ hEscape ((normalizeTokens (cs ("xy\\bcd"))).drop p')) ∧
      _escape_latex_with_bold_markers (some (cs ("xy\\bcd"))) =
        renderLatexSpans pre ++ escLatex ((normalizeTokens (cs ("xy\\bcd"))).drop p')) := by
  refine ⟨by decide, c1_unterminated_literal (cs ("xy\\bcd")) 2 (by decide) ?_⟩
  intro q hq
  rcases Nat.lt_or_ge q 5 with h | h
  · interval_cases q <;> decide
  · apply occursAtB_false_of_len CLOSE_ne_nil
    have hlen : (normalizeTokens (cs ("xy\\bcd"))).length = 6 := by decide
    rw [hlen, CLOSE_length]
    omega

/-- Counterexample to C1 as literally stated: in `"\bx\b\"` the open token at
index 3 has no close token at any index `≥ 5` (none "subsequent" to it), yet
the scanner emits a bold span `x\` — the close token found at index 4 overlaps
the open token at 3 — so the tail from index 3 is not emitted as literal text
and both converters produce a bold construct. -/
theorem c1_unterminated_counterexample :
    occursAtB OPEN (normalizeTokens (cs ("\\bx\\b\\"))) 3 = true ∧
    findSub CLOSE ((normalizeTokens (cs ("\\bx\\b\\"))).drop 5) = none ∧
    spans (normalizeTokens (cs ("\\bx\\b\\"))) = [(true, cs ("x\\"))] ∧
    (spans (normalizeTokens (cs ("\\bx\\b\\")))).getLast? = some (true, cs ("x\\")) ∧
    _h_bold_markers (some (cs ("\\bx\\b\\"))) = cs ("<strong>x\\</strong>") ∧
    _escape_latex_with_bold_markers (some (cs ("\\bx\\b\\"))) =
      cs ("\\textbf\x7bx\\\x7d") := by
  decide

/-- C2.  The spans produced by the emphasis parser cover the whole
token-normalised input in order, with no gaps and no overlaps: reinserting the
emphasis tokens around bold spans and concatenating reproduces every character
of the (normalised) input, including leading and trailing whitespace; both
converters render exactly these spans. -/
theorem c2_spans_cover_input (v : Str) :
    unparse (spans (normalizeTokens v)) = normalizeTokens v ∧
    _h_bold_markers (some v) = trimWS (renderHtmlSpans (spans (normalizeTokens v))) ∧
    _escape_latex_with_bold_markers (some v) =
      renderLatexSpans (spans (normalizeTokens v)) :=
  ⟨spans_unparse _, rfl, rfl⟩

/-! ### Data model (`app/models/schemas_resume.py`, `schemas_template.py`)

Numeric theme fields (margins in mm, pdf scale) are embedded by their
rendered text, since no claim depends on numeric semantics, only on where the
values are interpolated.  `TemplateBlock.type` is embedded as an arbitrary
string so that the assemblers' handling of unregistered block types is
expressible. -/

structure Contact where
  phone : Option Str := none
  email : Option Str := none
  linkedin : Option Str := none
  github : Option Str := none
  location : Option Str := none
deriving DecidableEq

structure EducationItem where
  institution : Option Str := none
  degree : Option Str := none
  field_of_study : Option Str := none
  location : Option Str := none
  start_date : Option Str := none
  end_date : Option Str := none
  notes : Option Str := none
deriving DecidableEq

structure ExperienceItem where
  title : Option Str := none
  company : Option Str := none
  company_address : Option Str := none
  start_date : Option Str := none
  end_date : Option Str := none
  summary : Option Str := none
  responsibilities : List Str := []
deriving DecidableEq

structure ProjectItem where
  name : Option Str := none
  description : Option Str := none
  technologies : List Str := []
  link : Option Str := none
deriving DecidableEq

structure SkillCategory where
  category : Option Str := none
  skills : List Str := []
deriving DecidableEq

structure ResumeStructured where
  name : Option Str := none
  title : Option Str := none
  contact : Contact := {}
  professional_summary : Option Str := none
  education : List EducationItem := []
  experience : List ExperienceItem := []
  projects : List ProjectItem := []
  skills : List SkillCategory := []
deriving DecidableEq

structure TemplateTheme where
  primary_color : Str := cs ("#00BBF9")
  page_margin_top_mm : Str := cs ("5.0")
  page_margin_right_mm : Str := cs ("1.0")
  page_margin_bottom_mm : Str := cs ("5.0")
  page_margin_left_mm : Str := cs ("1.0")
  pdf_scale : Str := cs ("0.9")
deriving DecidableEq

structure TemplateBlock where
  type : Str
  props : List (Str × Str) := []
  style : List (Str × Str) := []
deriving DecidableEq

/-- Python truthiness of an optional string (`None` and `""` are falsy). -/
def optTruthy (v : Option Str) : Bool := v.getD [] ≠ []

/-- ASCII `str.lower()`; non-ASCII lowering is not exercised here. -/
def pyLower (l : Str) : Str := l.map Char.toLower

/-- ASCII `str.upper()`. -/
def pyUpper (l : Str) : Str := l.map Char.toUpper

namespace TemplateRenderer

/-- `resume_template_renderer._join_date`. -/
def _join_date (start e : Option Str) : Str :=
  let s := trimWS (start.getD [])
  let ee := trimWS (e.getD [])
  if s = [] ∧ ee = [] then []
  else if s ≠ [] ∧ ee ≠ [] then s ++ cs (" – ") ++ ee
  else if s ≠ [] then s else ee

end TemplateRenderer

namespace CreatorOverleaf

/-- `resume_creator_overleaf._join_date` (same text as the HTML renderer's). -/
def _join_date (start e : Option Str) : Str :=
  let s := trimWS (start.getD [])
  let ee := trimWS (e.getD [])
  if s = [] ∧ ee = [] then []
  else if s ≠ [] ∧ ee ≠ [] then s ++ cs (" – ") ++ ee
  else if s ≠ [] then s else ee

end CreatorOverleaf

namespace CreatorPdf

/-- `resume_creator_pdf._join_date` (via `_s`, the same trimming). -/
def _join_date (start e : Option Str) : Str :=
  let s := trimWS (start.getD [])
  let ee := trimWS (e.getD [])
  if s = [] ∧ ee = [] then []
  else if s ≠ [] ∧ ee ≠ [] then s ++ cs (" – ") ++ ee
  else if s ≠ [] then s else ee

end CreatorPdf

/-- C9.  The date-join operation agrees across all three back ends; it joins
the two trimmed values with the separator `" – "` when both are non-empty,
yields the single non-empty trimmed value when exactly one is present, and
yields the empty string when both are absent or whitespace; on `"2020"` and
`"2022"` it yields `"2020 – 2022"`. -/
theorem c9_join_date (a b : Option Str) :
    TemplateRenderer._join_date a b = CreatorOverleaf._join_date a b ∧
    TemplateRenderer._join_date a b = CreatorPdf._join_date a b ∧
    TemplateRenderer._join_date a b =
      (if trimWS (a.getD []) = [] ∨ trimWS (b.getD []) = []
        then trimWS (a.getD []) ++ trimWS (b.getD [])
        else trimWS (a.getD []) ++ cs (" – ") ++ trimWS (b.getD [])) ∧
    TemplateRenderer._join_date (some (cs ("2020"))) (some (cs ("2022"))) =
      cs ("2020 – 2022") := by
  refine ⟨rfl, rfl, ?_, by decide⟩
  unfold TemplateRenderer._join_date
  by_cases hs : trimWS (a.getD []) = [] <;> by_cases he : trimWS (b.getD []) = [] <;>
    simp [hs, he]

/-! ### URL normalisation and colour helpers -/

/-- `_normalize_http_url`, defined identically in
`resume_template_renderer.py` and `resume_creator_overleaf.py`:
prepend `https://` unless the trimmed value already starts (after
lowercasing) with `http://` or `https://`. -/
def _normalize_http_url (v : Option Str) : Str :=
  let s := trimWS (v.getD [])
  if s = [] then []
  else if (cs ("http://")).isPrefixOf (pyLower s) ∨ (cs ("https://")).isPrefixOf (pyLower s)
    then s
  else cs ("https://") ++ s

/-- Hex digit check (`[0-9A-Fa-f]`). -/
def isHexDigitB (c : Char) : Bool :=
  ('0' ≤ c && c ≤ '9') || ('a' ≤ c && c ≤ 'f') || ('A' ≤ c && c ≤ 'F')

/-- Value of a hex digit. -/
def hexVal (c : Char) : Option Nat :=
  if '0' ≤ c ∧ c ≤ '9' then some (c.toNat - 48)
  else if 'a' ≤ c ∧ c ≤ 'f' then some (c.toNat - 87)
  else if 'A' ≤ c ∧ c ≤ 'F' then some (c.toNat - 55)
  else none

def pyIntHexAux : Nat → Str → Option Nat
  | acc, [] => some acc
  | acc, c :: rest =>
    match hexVal c with
    | none => none
    | some d => pyIntHexAux (acc * 16 + d) rest

/-- Digits part of `int(x, 16)`: non-empty string of hex digits. -/
def pyIntHexCore (l : Str) : Option Nat :=
  if l = [] then none else pyIntHexAux 0 l

/-- Modelled from Python `int(x, 16)`: surrounding whitespace is stripped, an
optional single sign is accepted, then a non-empty run of hex digits.
(For the at-most-2-character slices this program passes, this agrees with
CPython: the `0x`-prefix and underscore-separator forms all error there.) -/
def pyIntHex (l : Str) : Option Int :=
  let t := trimWS l
  match t with
  | '+' :: rest => (pyIntHexCore rest).map (fun n => (n : Int))
  | '-' :: rest => (pyIntHexCore rest).map (fun n => -(n : Int))
  | _ => (pyIntHexCore t).map (fun n => (n : Int))

/-- Decimal rendering of an integer, as Python's f-string does. -/
def decRepr (i : Int) : Str := (toString i).data

/-- The hex part `_rgba_from_hex` extracts: `c[1:].strip()` of the trimmed
colour, doubled when of length 3. -/
def rgbaHexPart (color : Str) : Str :=
  let hx0 := trimWS ((trimWS color).drop 1)
  if hx0.length = 3 then hx0.flatMap (fun ch => [ch, ch]) else hx0

/-- The candidate `_hex6` validates: `v.strip().lstrip("#")`, doubled when of
length 3. -/
def hex6Core (v : Str) : Str :=
  let s := (trimWS v).dropWhile (fun c => c = '#')
  if s.length = 3 then s.flatMap (fun ch => [ch, ch]) else s

namespace TemplateRenderer

/-- `resume_template_renderer._rgba_from_hex`.  The `alpha` float is
abstracted by its clamped rendered representation `alphaRepr` (its numeric
clamping `max(0.0, min(1.0, alpha))` only affects the digits interpolated
into the output, which no claim inspects). -/
def _rgba_from_hex (color : Str) (alphaRepr : Str) : Str :=
  let c := trimWS color
  if ¬ ((cs ("#")).isPrefixOf c) then c
  else
    let hx := rgbaHexPart color
    if hx.length ≠ 6 then c
    else
      match pyIntHex (hx.take 2), pyIntHex ((hx.drop 2).take 2), pyIntHex (hx.drop 4) with
      | some r, some g, some b =>
        cs ("rgba(") ++ decRepr r ++ cs (", ") ++ decRepr g ++ cs (", ") ++
          decRepr b ++ cs (", ") ++ alphaRepr ++ cs (")")
      | _, _, _ => c

end TemplateRenderer

namespace CreatorOverleaf

/-- `resume_creator_overleaf._hex6`: strip whitespace and leading `#`s,
double a 3-digit shorthand, validate 6 hex digits, uppercase; fall back to
`00BBF9`. -/
def _hex6 (v : Str) : Str :=
  let s := hex6Core v
  if s.length ≠ 6 then cs ("00BBF9")
  else if ¬ (s.all isHexDigitB) then cs ("00BBF9")
  else pyUpper s

end CreatorOverleaf

/-- C10 (amended).  The colour helpers are total Lean functions (they raise
nothing) with these fallback rules: `_rgba_from_hex` returns the
whitespace-trimmed input whenever it does not start with `#`, or its hex part
(after 3→6 doubling) does not have exactly 6 characters, or any of the three
2-character chunks fails Python `int(·, 16)` parsing; `_hex6` returns the
fixed default `00BBF9` exactly when, after stripping whitespace and all
leading `#` and doubling a 3-character form, the result is not 6 hex digits,
and otherwise returns that string uppercased. -/
theorem c10_color_fallbacks (color alphaRepr v : Str) :
    (¬ ((cs ("#")).isPrefixOf (trimWS color) = true) →
      TemplateRenderer._rgba_from_hex color alphaRepr = trimWS color) ∧
    ((rgbaHexPart color).length ≠ 6 →
      TemplateRenderer._rgba_from_hex color alphaRepr = trimWS color) ∧
    ((pyIntHex ((rgbaHexPart color).take 2) = none ∨
      pyIntHex (((rgbaHexPart color).drop 2).take 2) = none ∨
      pyIntHex ((rgbaHexPart color).drop 4) = none) →
      TemplateRenderer._rgba_from_hex color alphaRepr = trimWS color) ∧
    (((hex6Core v).length ≠ 6 ∨ ¬ ((hex6Core v).all isHexDigitB = true)) →
      CreatorOverleaf._hex6 v = cs ("00BBF9")) ∧
    (((hex6Core v).length = 6 ∧ (hex6Core v).all isHexDigitB = true) →
      CreatorOverleaf._hex6 v = pyUpper (hex6Core v)) := by
  refine ⟨?_, ?_, ?_, ?_, ?_⟩
  · intro h
    simp only [TemplateRenderer._rgba_from_hex]
    rw [if_pos h]
  · intro h
    simp only [TemplateRenderer._rgba_from_hex]
    by_cases hpre : (cs ("#")).isPrefixOf (trimWS color) = true
    · rw [if_neg (by simpa using hpre), if_pos h]
    · rw [if_pos hpre]
  · intro h
    simp only [TemplateRenderer._rgba_from_hex]
    by_cases hpre : (cs ("#")).isPrefixOf (trimWS color) = true
    · rw [if_neg (by simpa using hpre)]
      by_cases hlen : (rgbaHexPart color).length ≠ 6
      · rw [if_pos hlen]
      · rw [if_neg hlen]
        rcases h1 : pyIntHex ((rgbaHexPart color).take 2) with _ | r <;>
          rcases h2 : pyIntHex (((rgbaHexPart color).drop 2).take 2) with _ | g <;>
          rcases h3 : pyIntHex ((rgbaHexPart color).drop 4) with _ | b <;>
          simp_all
    · rw [if_pos hpre]
  · intro h
    simp only [CreatorOverleaf._hex6]
    rcases h with h | h
    · rw [if_pos h]
    · by_cases hlen : (hex6Core v).length ≠ 6
      · rw [if_pos hlen]
      · rw [if_neg hlen, if_pos h]
  · intro h
    simp only [CreatorOverleaf._hex6]
    rw [if_neg (by omega), if_neg (by simp [h.2])]

/-- Witness for C10: a scheme-less colour string passes through trimmed, and
a non-hex string falls back to the default. -/
theorem c10_color_fallbacks_witness :
    TemplateRenderer._rgba_from_hex (cs ("tomato")) (cs ("0.9")) = cs ("tomato") ∧
    CreatorOverleaf._hex6 (cs ("oops")) = cs ("00BBF9") :=
  ⟨(c10_color_fallbacks (cs ("tomato")) (cs ("0.9")) (cs ("oops"))).1 (by decide),
   (c10_color_fallbacks (cs ("tomato")) (cs ("0.9")) (cs ("oops"))).2.2.2.1 (by decide)⟩

/-- Counterexample to C10 as stated: `"#a bcde"` starts with `#` and its hex
part is six characters but not six valid hex digits (it contains a space),
yet `_rgba_from_hex` does not return the input unchanged — Python
`int("a ", 16)` tolerates the whitespace, so an rgba() string is produced.
Likewise `"##fff"` is not a valid 3- or 6-digit hex colour, yet `_hex6`
returns `"FFFFFF"`, not the default. -/
theorem c10_counterexample :
    TemplateRenderer._rgba_from_hex (cs ("#a bcde")) (cs ("0.9")) =
      cs ("rgba(10, 188, 222, 0.9)") ∧
    TemplateRenderer._rgba_from_hex (cs ("#a bcde")) (cs ("0.9")) ≠ cs ("#a bcde") ∧
    (rgbaHexPart (cs ("#a bcde"))).length = 6 ∧
    ¬ ((rgbaHexPart (cs ("#a bcde"))).all isHexDigitB = true) ∧
    CreatorOverleaf._hex6 (cs ("##fff")) = cs ("FFFFFF") ∧
    cs ("FFFFFF") ≠ cs ("00BBF9") := by
  decide

/-! ### Filename sanitisation (`resume_creator_pdf._safe_ascii_stem` /
`_safe_filename`; `resume_creator_overleaf` carries an identical copy) -/

/-- Modelled from the spec: "strips to ASCII" — Python
`unicodedata.normalize("NFKD", v).encode("ascii", "ignore")`.  ASCII
characters pass through; the accented Latin letters exercised by this
development decompose to their base letter (their combining accents are
dropped by the ascii-ignore step); other non-ASCII characters without an
ASCII decomposition (e.g. the em dash) are dropped. -/
def asciiLossyChar (c : Char) : Str :=
  if c.toNat < 128 then [c]
  else if c = 'é' then ['e']
  else if c = 'É' then ['E']
  else if c = 'á' then ['a']
  else if c = 'Á' then ['A']
  else []

def asciiLossy (l : Str) : Str := l.flatMap asciiLossyChar

/-- Characters kept by `re.sub(r"[^A-Za-z0-9\-_]+", "", v)`. -/
def isStemAllowed (c : Char) : Bool :=
  ('A' ≤ c && c ≤ 'Z') || ('a' ≤ c && c ≤ 'z') || ('0' ≤ c && c ≤ '9') ||
    c == '-' || c == '_'

/-- The strip set of `.strip("-_")`. -/
def isDashUnd (c : Char) : Bool := c == '-' || c == '_'

/-- `re.sub(r"-{2,}", "-", v)`: every maximal run of hyphens becomes a single
hyphen.  The flag records whether the previous character belonged to a hyphen
run. -/
def collapseHAux : Bool → Str → Str
  | _, [] => []
  | prevH, c :: rest =>
    if c = '-' then
      (if prevH then collapseHAux true rest else '-' :: collapseHAux true rest)
    else c :: collapseHAux false rest

def collapseHyphens (l : Str) : Str := collapseHAux false l

/-- Python `str.strip(chars)`: drop matching characters from both ends. -/
def stripBoth (p : Char → Bool) (l : Str) : Str :=
  ((l.dropWhile p).reverse.dropWhile p).reverse

/-- No two adjacent hyphens. -/
def noDoubleHyphen : Str → Bool
  | [] => true
  | [_] => true
  | a :: b :: rest => !(a == '-' && b == '-') && noDoubleHyphen (b :: rest)

namespace CreatorPdf

/-- `resume_creator_pdf._safe_ascii_stem`: trim, fold to ASCII, spaces to
hyphens, drop disallowed characters, collapse hyphen runs, strip `-_` from
the ends. -/
def _safe_ascii_stem (v : Str) : Str :=
  let v1 := trimWS v
  if v1 = [] then []
  else
    stripBoth isDashUnd (collapseHyphens
      (((asciiLossy v1).map (fun c => if c = ' ' then '-' else c)).filter isStemAllowed))

/-- `resume_creator_pdf._safe_filename`: fall back to `"resume"` on an empty
stem, normalise the extension's leading dot, truncate the stem to 50
characters. -/
def _safe_filename (v : Str) (ext : Str) : Str :=
  let stem := if _safe_ascii_stem v = [] then cs ("resume") else _safe_ascii_stem v
  let ext2 := if (cs (".")).isPrefixOf ext then ext else '.' :: ext
  stem.take 50 ++ ext2

end CreatorPdf

theorem mem_dropWhile {p : Char → Bool} : ∀ {l : Str} {c : Char},
    c ∈ l.dropWhile p → c ∈ l := by
  intro l
  induction l with
  | nil => intro c h; simp at h
  | cons x xs ih =>
    intro c h
    by_cases hx : p x = true
    · rw [List.dropWhile_cons, if_pos hx] at h
      exact List.mem_cons_of_mem x (ih h)
    · rw [List.dropWhile_cons, if_neg hx] at h
      exact h

theorem mem_stripBoth {p : Char → Bool} {l : Str} {c : Char}
    (h : c ∈ stripBoth p l) : c ∈ l := by
  unfold stripBoth at h
  rw [List.mem_reverse] at h
  have h2 := mem_dropWhile h
  rw [List.mem_reverse] at h2
  exact mem_dropWhile h2

theorem mem_collapseHAux : ∀ (b : Bool) (l : Str) (c : Char),
    c ∈ collapseHAux b l → c ∈ l := by
  intro b l
  induction l generalizing b with
  | nil => intro c h; simp [collapseHAux] at h
  | cons x xs ih =>
    intro c h
    by_cases hx : x = '-'
    · subst hx
      by_cases hb : b = true
      · subst hb
        simp only [collapseHAux, if_pos rfl, if_pos rfl] at h
        exact List.mem_cons_of_mem _ (ih true c h)
      · have hb' : b = false := by
          cases b
          · rfl
          · exact absurd rfl hb
        subst hb'
        simp only [collapseHAux, if_pos rfl] at h
        simp only [Bool.false_eq_true, if_false] at h
        rcases List.mem_cons.mp h with h | h
        · subst h; exact List.mem_cons_self _ _
        · exact List.mem_cons_of_mem _ (ih true c h)
    · simp only [collapseHAux, if_neg hx] at h
      rcases List.mem_cons.mp h with h | h
      · subst h; exact List.mem_cons_self _ _
      · exact List.mem_cons_of_mem _ (ih false c h)

theorem dropWhile_suffix (p : Char → Bool) : ∀ l : Str, ∃ t, t ++ l.dropWhile p = l := by
  intro l
  induction l with
  | nil => exact ⟨[], rfl⟩
  | cons x xs ih =>
    by_cases hx : p x = true
    · rcases ih with ⟨t, ht⟩
      refine ⟨x :: t, ?_⟩
      rw [List.dropWhile_cons, if_pos hx, List.cons_append, ht]
    · refine ⟨[], ?_⟩
      rw [List.dropWhile_cons, if_neg hx, List.nil_append]

theorem stripBoth_within (p : Char → Bool) (l : Str) :
    ∃ a b, a ++ stripBoth p l ++ b = l := by
  rcases dropWhile_suffix p l with ⟨a, ha⟩
  rcases dropWhile_suffix p (l.dropWhile p).reverse with ⟨t, ht⟩
  refine ⟨a, t.reverse, ?_⟩
  have : stripBoth p l ++ t.reverse = l.dropWhile p := by
    unfold stripBoth
    rw [← List.reverse_append, ht, List.reverse_reverse]
  rw [List.append_assoc, this, ha]

theorem noDouble_iff_chain : ∀ l : Str,
    noDoubleHyphen l = true ↔ List.Chain' (fun a b : Char => ¬(a = '-' ∧ b = '-')) l := by
  intro l
  induction l with
  | nil => simp [noDoubleHyphen]
  | cons x xs ih =>
    cases xs with
    | nil => simp [noDoubleHyphen]
    | cons y ys =>
      rw [List.chain'_cons, ← ih]
      simp only [noDoubleHyphen, Bool.and_eq_true, Bool.not_eq_true']
      constructor
      · rintro ⟨h1, h2⟩
        refine ⟨?_, h2⟩
        rintro ⟨rfl, rfl⟩
        simp at h1
      · rintro ⟨h1, h2⟩
        refine ⟨?_, h2⟩
        by_contra hcon
        simp only [Bool.not_eq_false, Bool.and_eq_true, beq_iff_eq] at hcon
        exact h1 ⟨hcon.1, hcon.2⟩

theorem collapse_true_head : ∀ (l : Str) (c : Char),
    (collapseHAux true l).head? = some c → c ≠ '-' := by
  intro l
  induction l with
  | nil => intro c h; simp [collapseHAux] at h
  | cons x xs ih =>
    intro c h
    by_cases hx : x = '-'
    · subst hx
      simp only [collapseHAux, if_pos rfl, if_pos rfl] at h
      exact ih c h
    · simp only [collapseHAux, if_neg hx, List.head?_cons, Option.some.injEq] at h
      subst h; exact hx

theorem noDouble_cons_iff (a : Char) (w : Str) :
    noDoubleHyphen (a :: w) = true ↔
      (∀ c, w.head? = some c → ¬(a = '-' ∧ c = '-')) ∧ noDoubleHyphen w = true := by
  cases w with
  | nil => simp [noDoubleHyphen]
  | cons b bs =>
    simp only [noDoubleHyphen, Bool.and_eq_true, Bool.not_eq_true', List.head?_cons]
    constructor
    · rintro ⟨h1, h2⟩
      refine ⟨?_, h2⟩
      rintro c hc ⟨rfl, rfl⟩
      cases hc
      simp at h1
    · rintro ⟨h1, h2⟩
      refine ⟨?_, h2⟩
      by_contra hcon
      simp only [Bool.not_eq_false, Bool.and_eq_true, beq_iff_eq] at hcon
      exact h1 b rfl ⟨hcon.1, hcon.2⟩

theorem noDouble_collapse : ∀ (b : Bool) (l : Str),
    noDoubleHyphen (collapseHAux b l) = true := by
  intro b l
  induction l generalizing b with
  | nil => cases b <;> rfl
  | cons x xs ih =>
    by_cases hx : x = '-'
    · subst hx
      cases b with
      | true => simpa [collapseHAux] using ih true
      | false =>
        have hred : collapseHAux false ('-' :: xs) = '-' :: collapseHAux true xs := by
          simp [collapseHAux]
        rw [hred, noDouble_cons_iff]
        exact ⟨fun c hc ⟨_, hcs⟩ => collapse_true_head xs c hc hcs, ih true⟩
    · simp only [collapseHAux, if_neg hx]
      rw [noDouble_cons_iff]
      exact ⟨fun c _ ⟨ha, _⟩ => hx ha, ih false⟩

theorem noDouble_stripBoth {p : Char → Bool} {l : Str}
    (h : noDoubleHyphen l = true) : noDoubleHyphen (stripBoth p l) = true := by
  rcases stripBoth_within p l with ⟨a, b, hab⟩
  rw [noDouble_iff_chain] at h ⊢
  exact List.Chain'.infix h ⟨a, b, hab⟩

theorem head?_dropWhile_not {p : Char → Bool} : ∀ {l : Str} {c : Char},
    (l.dropWhile p).head? = some c → p c = false := by
  intro l
  induction l with
  | nil => intro c h; simp at h
  | cons x xs ih =>
    intro c h
    by_cases hx : p x = true
    · rw [List.dropWhile_cons, if_pos hx] at h
      exact ih h
    · rw [List.dropWhile_cons, if_neg hx, List.head?_cons] at h
      cases h
      simpa using hx

theorem getLast?_append_right {a b : Str} (hb : b ≠ []) :
    (a ++ b).getLast? = b.getLast? := by
  induction a with
  | nil => rfl
  | cons x xs ih =>
    rw [List.cons_append, List.getLast?_cons, ih]
    cases b with
    | nil => exact absurd rfl hb
    | cons y ys => simp [List.getLast?_cons]

theorem head?_stripBoth {p : Char → Bool} {l : Str} {c : Char}
    (h : (stripBoth p l).head? = some c) : p c = false := by
  unfold stripBoth at h
  rw [List.head?_reverse] at h
  rcases dropWhile_suffix p (l.dropWhile p).reverse with ⟨t, ht⟩
  have hX : ((l.dropWhile p).reverse.dropWhile p) ≠ [] := by
    intro hcon
    rw [hcon] at h
    simp at h
  have := getLast?_append_right (a := t) hX
  rw [ht] at this
  rw [h, List.getLast?_reverse] at this
  exact head?_dropWhile_not this

theorem getLast?_stripBoth {p : Char → Bool} {l : Str} {c : Char}
    (h : (stripBoth p l).getLast? = some c) : p c = false := by
  unfold stripBoth at h
  rw [List.getLast?_reverse] at h
  exact head?_dropWhile_not h

/-- C6.  For every input, the filename stem contains only characters from
`[A-Za-z0-9-_]`, has no run of two or more consecutive hyphens, neither
starts nor ends with a hyphen or underscore, is truncated to at most 50
characters in the final filename, falls back to `"resume"` when sanitisation
leaves nothing, and the stem of `"José Álvarez — CV!!"` is the non-empty
ASCII string `"Jose-Alvarez-CV"`. -/
theorem c6_safe_filename_stem (v ext : Str) :
    (∀ c ∈ CreatorPdf._safe_ascii_stem v, isStemAllowed c = true) ∧
    noDoubleHyphen (CreatorPdf._safe_ascii_stem v) = true ∧
    (∀ c, (CreatorPdf._safe_ascii_stem v).head? = some c → isDashUnd c = false) ∧
    (∀ c, (CreatorPdf._safe_ascii_stem v).getLast? = some c → isDashUnd c = false) ∧
    (CreatorPdf._safe_filename v ext).length ≤
      50 + (if (cs (".")).isPrefixOf ext then ext else '.' :: ext).length ∧
    (CreatorPdf._safe_ascii_stem v = [] →
      CreatorPdf._safe_filename v ext =
        cs ("resume") ++ (if (cs (".")).isPrefixOf ext then ext else '.' :: ext)) ∧
    CreatorPdf._safe_ascii_stem (cs ("José Álvarez — CV!!")) = cs ("Jose-Alvarez-CV") ∧
    cs ("Jose-Alvarez-CV") ≠ ([] : Str) := by
  refine ⟨?_, ?_, ?_, ?_, ?_, ?_, by decide, by decide⟩
  · intro c hc
    unfold CreatorPdf._safe_ascii_stem at hc
    by_cases hv : trimWS v = []
    · rw [if_pos hv] at hc; simp at hc
    · rw [if_neg hv] at hc
      have h1 := mem_collapseHAux false _ c (mem_stripBoth hc)
      exact (List.mem_filter.mp h1).2
  · unfold CreatorPdf._safe_ascii_stem
    by_cases hv : trimWS v = []
    · rw [if_pos hv]; rfl
    · rw [if_neg hv]
      exact noDouble_stripBoth (noDouble_collapse false _)
  · intro c hc
    unfold CreatorPdf._safe_ascii_stem at hc
    by_cases hv : trimWS v = []
    · rw [if_pos hv] at hc; simp at hc
    · rw [if_neg hv] at hc
      exact head?_stripBoth hc
  · intro c hc
    unfold CreatorPdf._safe_ascii_stem at hc
    by_cases hv : trimWS v = []
    · rw [if_pos hv] at hc; simp at hc
    · rw [if_neg hv] at hc
      exact getLast?_stripBoth hc
  · unfold CreatorPdf._safe_filename
    rw [List.length_append, List.length_take]
    omega
  · intro h
    unfold CreatorPdf._safe_filename
    rw [if_pos h]
    rfl

/-- Witness for C6: the all-punctuation title `"!!!"` sanitises to the empty
stem and falls back to `"resume"`; the accented example keeps a non-empty
hyphenated ASCII stem. -/
theorem c6_safe_filename_stem_witness :
    CreatorPdf._safe_ascii_stem (cs ("!!!")) = [] ∧
    CreatorPdf._safe_filename (cs ("!!!")) (cs ("pdf")) =
      cs ("resume") ++
        (if (cs (".")).isPrefixOf (cs ("pdf")) then cs ("pdf") else '.' :: cs ("pdf")) ∧
    noDoubleHyphen (CreatorPdf._safe_ascii_stem (cs ("José Álvarez — CV!!"))) = true :=
  ⟨by decide,
   (c6_safe_filename_stem (cs ("!!!")) (cs ("pdf"))).2.2.2.2.2.1 (by decide),
   (c6_safe_filename_stem (cs ("José Álvarez — CV!!")) (cs ("pdf"))).2.1⟩

/-! ### Contact items (`_contact_items` in the HTML and PDF back ends,
`render_header` in the LaTeX back end) -/

namespace TemplateRenderer

/-- The `items` list `resume_template_renderer._contact_items` builds before
de-duplication, in the fixed order email, phone, location, linkedin, github
(each field appended when truthy). -/
def contactRawItems (c : Contact) : List (Str × Str) :=
  (if optTruthy c.email then [(cs ("email"), c.email.getD [])] else []) ++
  (if optTruthy c.phone then [(cs ("phone"), c.phone.getD [])] else []) ++
  (if optTruthy c.location then [(cs ("location"), c.location.getD [])] else []) ++
  (if optTruthy c.linkedin then [(cs ("linkedin"), c.linkedin.getD [])] else []) ++
  (if optTruthy c.github then [(cs ("github"), c.github.getD [])] else [])

/-- The de-duplication loop of `_contact_items`: skip empty trimmed labels
and labels already `seen`; keep the first occurrence. -/
def dedupeByLabel : List (Str × Str) → List Str → List (Str × Str)
  | [], _ => []
  | (k, l) :: rest, seen =>
    if trimWS l = [] ∨ trimWS l ∈ seen then dedupeByLabel rest seen
    else (k, trimWS l) :: dedupeByLabel rest (trimWS l :: seen)

/-- `resume_template_renderer._contact_items`. -/
def _contact_items (prof : ResumeStructured) : List (Str × Str) :=
  dedupeByLabel (contactRawItems prof.contact) []

end TemplateRenderer

namespace CreatorPdf

/-- The five `add(kind, label)` calls of `resume_creator_pdf._contact_items`,
in order. -/
def pdfRawItems (c : Contact) : List (Str × Option Str) :=
  [(cs ("email"), c.email), (cs ("phone"), c.phone), (cs ("location"), c.location),
   (cs ("linkedin"), c.linkedin), (cs ("github"), c.github)]

/-- The body of `add`: skip empty labels, kinds already seen, and labels
already seen; otherwise record both and append. -/
def addDedupe : List (Str × Option Str) → List Str → List Str → List (Str × Str)
  | [], _, _ => []
  | (k, lab?) :: rest, seenKind, seenLabel =>
    if trimWS (lab?.getD []) = [] then addDedupe rest seenKind seenLabel
    else if k ∈ seenKind then addDedupe rest seenKind seenLabel
    else if trimWS (lab?.getD []) ∈ seenLabel then addDedupe rest seenKind seenLabel
    else (k, trimWS (lab?.getD [])) ::
      addDedupe rest (k :: seenKind) (trimWS (lab?.getD []) :: seenLabel)

/-- `resume_creator_pdf._contact_items`. -/
def _contact_items (c : Contact) : List (Str × Str) := addDedupe (pdfRawItems c) [] []

end CreatorPdf

namespace CreatorOverleaf

/-- The `render_header` closure of
`resume_creator_overleaf.render_latex_with_template`: centered name, title
and a contact line built by appending each truthy contact field in order —
with no de-duplication — joined by `" $|$ "`. -/
def render_header (prof : ResumeStructured) : Str :=
  let name := escLatex (prof.name.getD [])
  let title := escLatex (prof.title.getD [])
  let parts : List Str :=
    (if optTruthy prof.contact.email then [escLatex (prof.contact.email.getD [])] else []) ++
    (if optTruthy prof.contact.phone then [escLatex (prof.contact.phone.getD [])] else []) ++
    (if optTruthy prof.contact.location then
      [escLatex (prof.contact.location.getD [])] else []) ++
    (if optTruthy prof.contact.linkedin then
      [cs ("\\href\x7b") ++ escLatex (_normalize_http_url prof.contact.linkedin) ++
        cs ("\x7d\x7b\\uline\x7bLinkedIn\x7d\x7d")] else []) ++
    (if optTruthy prof.contact.github then
      [cs ("\\href\x7b") ++ escLatex (_normalize_http_url prof.contact.github) ++
        cs ("\x7d\x7b\\uline\x7bGitHub\x7d\x7d")] else [])
  let contact := List.intercalate (cs (" $|$ ")) parts
  let out : List Str :=
    (if name ≠ [] then
      [cs ("\\begin\x7bcenter\x7d\\textbf\x7b\\fontsize\x7b20pt\x7d\x7b22pt\x7d\\selectfont ") ++
        name ++ cs ("\x7d\\end\x7bcenter\x7d")] else []) ++
    (if title ≠ [] then
      [cs ("\\begin\x7bcenter\x7d\\textcolor\x7bblack!70\x7d\x7b\\RPSubTitle\x7b") ++
        title ++ cs ("\x7d\x7d\\end\x7bcenter\x7d")] else []) ++
    (if contact ≠ [] then
      [cs ("\\begin\x7bcenter\x7d\\textcolor\x7bPrimary\x7d\x7b\\RPContact\x7b") ++
        contact ++ cs ("\x7d\x7d\\end\x7bcenter\x7d")] else [])
  List.intercalate (cs ("\n")) out ++ cs ("\n")

end CreatorOverleaf

theorem dedupeByLabel_spec : ∀ (l : List (Str × Str)) (seen : List Str),
    ((TemplateRenderer.dedupeByLabel l seen).map Prod.snd).Nodup ∧
    (∀ lab ∈ (TemplateRenderer.dedupeByLabel l seen).map Prod.snd, lab ∉ seen) ∧
    (∀ kl ∈ TemplateRenderer.dedupeByLabel l seen, kl.2 ≠ []) := by
  intro l
  induction l with
  | nil => intro seen; simp [TemplateRenderer.dedupeByLabel]
  | cons kl rest ih =>
    intro seen
    obtain ⟨k, lab0⟩ := kl
    simp only [TemplateRenderer.dedupeByLabel]
    by_cases hskip : trimWS lab0 = [] ∨ trimWS lab0 ∈ seen
    · rw [if_pos hskip]
      exact ⟨(ih seen).1, (ih seen).2.1, (ih seen).2.2⟩
    · rw [if_neg hskip]
      push_neg at hskip
      obtain ⟨hne, hnotin⟩ := hskip
      have IH := ih (trimWS lab0 :: seen)
      refine ⟨?_, ?_, ?_⟩
      · simp only [List.map_cons, List.nodup_cons]
        exact ⟨fun hmem => (IH.2.1 _ hmem) (List.mem_cons_self _ _), IH.1⟩
      · intro lab hmem
        simp only [List.map_cons, List.mem_cons] at hmem
        rcases hmem with rfl | hmem
        · exact hnotin
        · exact fun hs => (IH.2.1 _ hmem) (List.mem_cons_of_mem _ hs)
      · intro kl2 hmem
        rcases List.mem_cons.mp hmem with rfl | hmem
        · exact hne
        · exact IH.2.2 _ hmem

theorem addDedupe_spec : ∀ (l : List (Str × Option Str)) (sk sl : List Str),
    ((CreatorPdf.addDedupe l sk sl).map Prod.snd).Nodup ∧
    ((CreatorPdf.addDedupe l sk sl).map Prod.fst).Nodup ∧
    (∀ lab ∈ (CreatorPdf.addDedupe l sk sl).map Prod.snd, lab ∉ sl) ∧
    (∀ k ∈ (CreatorPdf.addDedupe l sk sl).map Prod.fst, k ∉ sk) ∧
    (∀ kl ∈ CreatorPdf.addDedupe l sk sl, kl.2 ≠ []) := by
  intro l
  induction l with
  | nil => intro sk sl; simp [CreatorPdf.addDedupe]
  | cons kl rest ih =>
    intro sk sl
    obtain ⟨k, lab?⟩ := kl
    simp only [CreatorPdf.addDedupe]
    by_cases h1 : trimWS (lab?.getD []) = []
    · rw [if_pos h1]
      exact ih sk sl
    · rw [if_neg h1]
      by_cases h2 : k ∈ sk
      · rw [if_pos h2]
        exact ih sk sl
      · rw [if_neg h2]
        by_cases h3 : trimWS (lab?.getD []) ∈ sl
        · rw [if_pos h3]
          exact ih sk sl
        · rw [if_neg h3]
          have IH := ih (k :: sk) (trimWS (lab?.getD []) :: sl)
          refine ⟨?_, ?_, ?_, ?_, ?_⟩
          · simp only [List.map_cons, List.nodup_cons]
            exact ⟨fun hmem => (IH.2.2.1 _ hmem) (List.mem_cons_self _ _), IH.1⟩
          · simp only [List.map_cons, List.nodup_cons]
            exact ⟨fun hmem => (IH.2.2.2.1 _ hmem) (List.mem_cons_self _ _), IH.2.1⟩
          · intro lab hmem
            simp only [List.map_cons, List.mem_cons] at hmem
            rcases hmem with rfl | hmem
            · exact h3
            · exact fun hs => (IH.2.2.1 _ hmem) (List.mem_cons_of_mem _ hs)
          · intro k2 hmem
            simp only [List.map_cons, List.mem_cons] at hmem
            rcases hmem with rfl | hmem
            · exact h2
            · exact fun hs => (IH.2.2.2.1 _ hmem) (List.mem_cons_of_mem _ hs)
          · intro kl2 hmem
            rcases List.mem_cons.mp hmem with rfl | hmem
            · exact h1
            · exact IH.2.2.2.2 _ hmem

/-- C4 (amended).  The HTML back end (`_contact_items`, de-dupe by label) and
the vector-PDF back end (`_contact_items`, de-dupe by kind then label) render
each distinct non-empty label exactly once, in first-occurrence order of the
fixed kind sequence; the LaTeX template back end's `render_header` performs no
de-duplication (see the counterexample). -/
theorem c4_contact_dedupe (prof : ResumeStructured) :
    ((TemplateRenderer._contact_items prof).map Prod.snd).Nodup ∧
    ((CreatorPdf._contact_items prof.contact).map Prod.snd).Nodup ∧
    ((CreatorPdf._contact_items prof.contact).map Prod.fst).Nodup ∧
    (∀ kl ∈ TemplateRenderer._contact_items prof, kl.2 ≠ []) ∧
    (∀ kl ∈ CreatorPdf._contact_items prof.contact, kl.2 ≠ []) :=
  ⟨(dedupeByLabel_spec _ []).1, (addDedupe_spec _ [] []).1, (addDedupe_spec _ [] []).2.1,
   (dedupeByLabel_spec _ []).2.2, (addDedupe_spec _ [] []).2.2.2.2⟩

/-- A record whose email and phone carry the identical label `x@y.z`. -/
def profDupContact : ResumeStructured :=
  { contact := { email := some (cs ("x@y.z")), phone := some (cs ("x@y.z")) } }

/-- Witness for C4 at a record with a duplicated label across kinds: both
de-duplicating back ends keep only the email occurrence. -/
theorem c4_contact_dedupe_witness :
    ((TemplateRenderer._contact_items profDupContact).map Prod.snd).Nodup ∧
    TemplateRenderer._contact_items profDupContact = [(cs ("email"), cs ("x@y.z"))] ∧
    CreatorPdf._contact_items profDupContact.contact = [(cs ("email"), cs ("x@y.z"))] :=
  ⟨(c4_contact_dedupe profDupContact).1, by decide, by decide⟩

/-- Counterexample to C4 as stated: the LaTeX template back end does not
de-duplicate — with email and phone both `x@y.z`, its rendered contact line
contains the label twice, while the HTML back end's `_contact_items` keeps it
once. -/
theorem c4_contact_counterexample :
    CreatorOverleaf.render_header profDupContact =
      cs ("\\begin\x7bcenter\x7d\\textcolor\x7bPrimary\x7d\x7b\\RPContact\x7bx@y.z $|$ x@y.z\x7d\x7d\\end\x7bcenter\x7d\n") ∧
    TemplateRenderer._contact_items profDupContact = [(cs ("email"), cs ("x@y.z"))] := by
  decide

/-! ### HTML renderer (`resume_template_renderer.py`) -/

namespace TemplateRenderer

/-- `resume_template_renderer._h`: HTML-escape the trimmed value. -/
def _h (v : Option Str) : Str := hEscape (trimWS (v.getD []))

/-- `resume_template_renderer._fa_icon`. -/
def _fa_icon (kind : Str) : Str :=
  if kind = cs ("email") then
    cs ("<i class=\"fa-solid fa-envelope\" aria-hidden=\"true\"></i>")
  else if kind = cs ("phone") then
    cs ("<i class=\"fa-solid fa-phone\" aria-hidden=\"true\"></i>")
  else if kind = cs ("location") then
    cs ("<i class=\"fa-solid fa-location-dot\" aria-hidden=\"true\"></i>")
  else if kind = cs ("linkedin") then
    cs ("<i class=\"fa-brands fa-linkedin-in\" aria-hidden=\"true\"></i>")
  else if kind = cs ("github") then
    cs ("<i class=\"fa-brands fa-github\" aria-hidden=\"true\"></i>")
  else []

/-- `resume_template_renderer._section`: empty inner (after strip) yields
empty output, otherwise the section envelope. -/
def _section (title : Str) (inner : Str) : Str :=
  if trimWS inner = [] then []
  else
    cs ("<section class=\"rp__section\">\n  <div class=\"rp__sectionHead\"><div class=\"rp__sectionTitle\">") ++
      _h (some title) ++ cs ("</div></div>\n  ") ++ inner ++ cs ("\n</section>")

/-- Replace the two-character sequence `\n` (backslash, "n") by `rep`.  The
HTML renderer's `.replace("\\n", "<br/>")` calls sit inside f-string
expressions, so (PEP 701) the pattern is the literal backslash-n sequence,
not a newline. -/
def replaceBackslashN (rep : Str) : Str → Str
  | '\\' :: 'n' :: rest => rep ++ replaceBackslashN rep rest
  | c :: rest => c :: replaceBackslashN rep rest
  | [] => []

/-- One membership of the contact `items` loop in `_render_header`
(`last` decides the separator). -/
def contactItemHtml (last : Bool) (kind lab : Str) : Str :=
  let sep :=
    if last then []
    else cs ("<span class=\"rp__contactSep\" aria-hidden=\"true\">|</span>")
  let text0 := cs ("<span class=\"rp__contactText\">") ++ _h (some lab) ++ cs ("</span>")
  let text :=
    if kind = cs ("linkedin") ∨ kind = cs ("github") then
      (if _normalize_http_url (some lab) ≠ [] then
        cs ("<a class=\"rp__contactLink\" href=\"") ++ _h (some (_normalize_http_url (some lab))) ++
          cs ("\">") ++
          _h (some (if kind = cs ("linkedin") then cs ("LinkedIn") else cs ("GitHub"))) ++
          cs ("</a>")
      else text0)
    else text0
  cs ("<span class=\"rp__contactItem\">\n  <span class=\"rp__contactIcon\">") ++ _fa_icon kind ++
    cs ("</span>\n  ") ++ text ++ cs ("\n  ") ++ sep ++ cs ("\n</span>")

/-- The enumerated contact loop (separator on all but the last item). -/
def contactItemsLoop : List (Str × Str) → List Str
  | [] => []
  | [(k, l)] => [contactItemHtml true k l]
  | (k, l) :: rest => contactItemHtml false k l :: contactItemsLoop rest

/-- `resume_template_renderer._render_header`.  Note the em-dash placeholder
when the name is absent: the header block is never empty. -/
def _render_header (prof : ResumeStructured) (_block : TemplateBlock) : Str :=
  let contact := _contact_items prof
  let contactHtml :=
    if contact ≠ [] then
      cs ("<div class=\"rp__contact\" aria-label=\"Contact details\">") ++
        (contactItemsLoop contact).flatten ++ cs ("</div>")
    else []
  cs ("<header class=\"rp__header\">\n  <div class=\"rp__headerBlock\">\n    <div class=\"rp__headerMain\">") ++
    (if _h prof.name = [] then cs ("—") else _h prof.name) ++
    cs ("</div>\n    ") ++
    (if optTruthy prof.title then
      cs ("<div class=\"rp__headerSub\">") ++ _h prof.title ++ cs ("</div>")
    else []) ++
    cs ("\n    ") ++ contactHtml ++ cs ("\n  </div>\n</header>")

/-- `resume_template_renderer._render_summary`. -/
def _render_summary (prof : ResumeStructured) (_block : TemplateBlock) : Str :=
  if ¬ optTruthy prof.professional_summary then []
  else
    _section (cs ("Summary"))
      (cs ("<div class=\"rp__text\">") ++
        replaceBackslashN (cs ("<br/>")) (_h prof.professional_summary) ++ cs ("</div>"))

/-- One row of `_render_skills` (`None` when the group is skipped). -/
def skillRowHtml (grp : SkillCategory) : Option Str :=
  let skills := (grp.skills.filter (fun s => trimWS s ≠ [])).map trimWS
  if skills = [] ∧ trimWS (grp.category.getD []) = [] then none
  else
    let cat := if optTruthy grp.category then _h grp.category else []
    let catHtml :=
      if cat ≠ [] then cs ("<span class=\"rp__skillCat\">") ++ cat ++ cs (":</span> ") else []
    some (cs ("<div class=\"rp__skillLine\">") ++ catHtml ++
      cs ("<span class=\"rp__skillItems\">") ++
      _h (some (List.intercalate (cs (", ")) skills)) ++ cs ("</span></div>"))

/-- `resume_template_renderer._render_skills`. -/
def _render_skills (prof : ResumeStructured) (_block : TemplateBlock) : Str :=
  if prof.skills.isEmpty then []
  else
    let rows := prof.skills.filterMap skillRowHtml
    if rows = [] then []
    else
      _section (cs ("Skills"))
        (cs ("<div class=\"rp__skillsBlock\">") ++ rows.flatten ++ cs ("</div>"))

/-- One item of `_render_experience`. -/
def expItemHtml (e : ExperienceItem) : Str :=
  let company := if _h e.company = [] then cs ("—") else _h e.company
  let addr := if optTruthy e.company_address then _h e.company_address else []
  let title := _h e.title
  let dates := _h (some (_join_date e.start_date e.end_date))
  let summaryHtml :=
    if optTruthy e.summary then
      cs ("<div class=\"rp__text\">") ++ replaceBackslashN (cs ("<br/>")) (_h e.summary) ++
        cs ("</div>")
    else []
  let resp := (e.responsibilities.filter (fun r => trimWS r ≠ [])).map trimWS
  let respHtml :=
    if resp ≠ [] then
      cs ("<ul class=\"rp__list\">") ++
        (resp.map (fun r => cs ("<li>") ++ _h_bold_markers (some r) ++ cs ("</li>"))).flatten ++
        cs ("</ul>")
    else []
  cs ("<div class=\"rp__item\">\n  <div class=\"rp__row\">\n    <div class=\"rp__company\">") ++
    company ++ cs ("</div>\n    ") ++
    (if addr ≠ [] then cs ("<div class=\"rp__addr\">") ++ addr ++ cs ("</div>") else []) ++
    cs ("\n  </div>\n  <div class=\"rp__row rp__rowSub\">\n    <div class=\"rp__role\">") ++
    title ++ cs ("</div>\n    ") ++
    (if dates ≠ [] then cs ("<div class=\"rp__dates\">") ++ dates ++ cs ("</div>") else []) ++
    cs ("\n  </div>\n  ") ++ summaryHtml ++ cs ("\n  ") ++ respHtml ++ cs ("\n</div>")

/-- `resume_template_renderer._render_experience`. -/
def _render_experience (prof : ResumeStructured) (_block : TemplateBlock) : Str :=
  if prof.experience.isEmpty then []
  else
    _section (cs ("Experience"))
      (cs ("<div class=\"rp__stack\">") ++ (prof.experience.map expItemHtml).flatten ++
        cs ("</div>"))

/-- One item of `_render_education`. -/
def eduItemHtml (e : EducationItem) : Str :=
  let inst := if _h e.institution = [] then cs ("—") else _h e.institution
  let dates := _h (some (_join_date e.start_date e.end_date))
  let field := List.intercalate (cs (" · "))
    (([e.degree.getD [], e.field_of_study.getD []]).filter (fun p => trimWS p ≠ []))
  let fieldH := _h (some field)
  let loc := if optTruthy e.location then _h e.location else []
  let notesHtml :=
    if optTruthy e.notes then
      cs ("<div class=\"rp__text\">") ++ replaceBackslashN (cs ("<br/>")) (_h e.notes) ++
        cs ("</div>")
    else []
  cs ("<div class=\"rp__item\">\n  <div class=\"rp__row\">\n    <div class=\"rp__school\">") ++
    inst ++ cs ("</div>\n    ") ++
    (if dates ≠ [] then cs ("<div class=\"rp__dates\">") ++ dates ++ cs ("</div>") else []) ++
    cs ("\n  </div>\n  <div class=\"rp__row rp__rowSub\">\n    <div class=\"rp__field\">") ++
    fieldH ++ cs ("</div>\n    ") ++
    (if loc ≠ [] then cs ("<div class=\"rp__loc\">") ++ loc ++ cs ("</div>") else []) ++
    cs ("\n  </div>\n  ") ++ notesHtml ++ cs ("\n</div>")

/-- `resume_template_renderer._render_education`. -/
def _render_education (prof : ResumeStructured) (_block : TemplateBlock) : Str :=
  if prof.education.isEmpty then []
  else
    _section (cs ("Education"))
      (cs ("<div class=\"rp__stack\">") ++ (prof.education.map eduItemHtml).flatten ++
        cs ("</div>"))

/-- The project links loop of `_render_projects`. -/
def projLinksLoop : List (Str × Str) → List Str
  | [] => []
  | [(label, href)] =>
    [cs ("<a class=\"rp__link\" href=\"") ++ _h (some href) ++ cs ("\">") ++ _h (some label) ++
      cs ("</a>")]
  | (label, href) :: rest =>
    (cs ("<a class=\"rp__link\" href=\"") ++ _h (some href) ++ cs ("\">") ++ _h (some label) ++
      cs ("</a><span class=\"rp__linkSep\"> | </span>")) :: projLinksLoop rest

/-- One item of `_render_projects`.  `getattr(p, "github", None)` and
`getattr(p, "demo", None)` are always `None` — `ProjectItem` defines neither
field — so only `p.link` can produce a (Demo) link, and its href is emitted
as-is (no scheme normalisation in this back end). -/
def projItemHtml (p : ProjectItem) : Str :=
  let name := if _h p.name = [] then cs ("—") else _h p.name
  let descHtml :=
    if optTruthy p.description then
      cs ("<div class=\"rp__text\">") ++ replaceBackslashN (cs ("<br/>")) (_h p.description) ++
        cs ("</div>")
    else []
  let tech := (p.technologies.filter (fun t => trimWS t ≠ [])).map trimWS
  let techHtml :=
    if tech ≠ [] then
      cs ("<div class=\"rp__text\"><span class=\"rp__muted\">Tech:</span> ") ++
        _h (some (List.intercalate (cs (", ")) tech)) ++ cs ("</div>")
    else []
  let github : Str := []
  let demo := trimWS (p.link.getD [])
  let links : List (Str × Str) :=
    (if github ≠ [] then [(cs ("GitHub"), github)] else []) ++
    (if demo ≠ [] then [(cs ("Demo"), demo)] else [])
  let linksHtml :=
    if links ≠ [] then
      cs ("<div class=\"rp__projLinks\">") ++ (projLinksLoop links).flatten ++ cs ("</div>")
    else []
  cs ("<div class=\"rp__item\">\n  <div class=\"rp__company\">") ++ name ++
    cs ("</div>\n  ") ++ descHtml ++ cs ("\n  ") ++ techHtml ++ cs ("\n  ") ++ linksHtml ++
    cs ("\n</div>")

/-- `resume_template_renderer._render_projects`. -/
def _render_projects (prof : ResumeStructured) (_block : TemplateBlock) : Str :=
  if prof.projects.isEmpty then []
  else
    _section (cs ("Projects"))
      (cs ("<div class=\"rp__stack\">") ++ (prof.projects.map projItemHtml).flatten ++
        cs ("</div>"))

/-- The `_RENDERERS` registry keyed by block type. -/
def _RENDERERS (t : Str) : Option (ResumeStructured → TemplateBlock → Str) :=
  if t = cs ("header") then some _render_header
  else if t = cs ("summary") then some _render_summary
  else if t = cs ("skills") then some _render_skills
  else if t = cs ("experience") then some _render_experience
  else if t = cs ("education") then some _render_education
  else if t = cs ("projects") then some _render_projects
  else none

/-- The assembly loop of `render_resume_html`: skip unregistered types, call
the renderer, keep fragments whose strip is non-empty. -/
def assembleHtmlFragments (prof : ResumeStructured) : List TemplateBlock → List Str
  | [] => []
  | b :: rest =>
    match _RENDERERS b.type with
    | none => assembleHtmlFragments prof rest
    | some fn =>
      if trimWS (fn prof b) = [] then assembleHtmlFragments prof rest
      else fn prof b :: assembleHtmlFragments prof rest

/-- `resume_template_renderer._css`: the inline style sheet, with the theme
colour tokens resolved exactly as the source does.  Note the `--primary`
token interpolates `primary` verbatim (no 3→6 digit expansion); only the
dotted divider goes through `_rgba_from_hex`. -/
def _css (theme : TemplateTheme) : Str :=
  let p0 := if theme.primary_color = [] then cs ("#00BBF9") else theme.primary_color
  let primary := if trimWS p0 = [] then cs ("#00BBF9") else trimWS p0
  let primaryDotted :=
    if _rgba_from_hex primary (cs ("0.9")) = [] then primary
    else _rgba_from_hex primary (cs ("0.9"))
  let pdfScale := if theme.pdf_scale = [] then cs ("1.0") else theme.pdf_scale
  cs ("html, body \x7b margin: 0; padding: 0; background: #fff; \x7d\n* \x7b box-sizing: border-box; \x7d\n\n:root \x7b\n  font-family: system-ui, Avenir, Helvetica, Arial, sans-serif;\n  line-height: 1.5;\n  font-weight: 400;\n  color: #0b1220;\n  background-color: #ffffff;\n  font-synthesis: none;\n  text-rendering: optimizeLegibility;\n  -webkit-font-smoothing: antialiased;\n  -moz-osx-font-smoothing: grayscale;\n  --primary: ") ++
    primary ++
    cs (";\n  --scale: ") ++
    pdfScale ++
    cs (";\n\x7d\n\n.rp \x7b\n  width: 100%;\n  max-width: 860px;\n  margin: 0 auto;\n  background: #fff;\n  padding: calc(28px * var(--scale)) calc(34px * var(--scale));\n\x7d\n\n.rp__header \x7b padding-bottom: 14px; border-bottom: 0; \x7d\n.rp__headerBlock \x7b text-align: center; \x7d\n.rp__headerMain \x7b\n  font-weight: 900; letter-spacing: -0.01em; font-size: calc(20pt * var(--scale));\n  color: rgba(11, 18, 32, 0.95);\n\x7d\n.rp__headerSub \x7b\n  margin-top: -2px; font-size: calc(11pt * var(--scale)); font-weight: 700;\n  color: rgba(11, 18, 32, 0.78);\n\x7d\n\n.rp__contact \x7b\n  margin-top: 10px; text-align: center; color: var(--primary);\n  font-size: calc(8.8pt * var(--scale)); font-weight: 800;\n\x7d\n.rp__contactItem \x7b display: inline-flex; align-items: center; gap: 6px; \x7d\n.rp__contactIcon \x7b display: inline-flex; align-items: center; justify-content: center; color: var(--primary); \x7d\n.rp__contactText \x7b color: rgba(11, 18, 32, 0.7); font-weight: 700; \x7d\n.rp__contactLink \x7b color: rgba(11, 18, 32, 0.7); font-weight: 700; text-decoration: underline; \x7d\n.rp__contactSep \x7b margin: 0 10px; color: rgba(11, 18, 32, 0.18); font-weight: 800; \x7d\n\n.rp__section \x7b margin-top: 1px; \x7d\n.rp__sectionHead \x7b\n  position: relative; display: flex; align-items: center; justify-content: center;\n  margin: 16px 0 10px;\n\x7d\n.rp__sectionTitle \x7b\n  font-weight: 900; letter-spacing: 0.06em; text-transform: uppercase;\n  font-size: calc(12pt * var(--scale)); color: var(--primary); padding: 0 12px;\n  background: #fff; position: relative; z-index: 1;\n\x7d\n.rp__sectionHead::before \x7b\n  content: ''; position: absolute; left: 0; right: 0; top: 50%;\n  border-top: 1px dotted ") ++
    primaryDotted ++
    cs (";\n  transform: translateY(-50%);\n\x7d\n\n.rp__text \x7b\n  margin-top: 6px;\n  color: rgba(11, 18, 32, 0.78);\n  line-height: 1.55;\n  font-size: calc(10pt * var(--scale));\n\x7d\n.rp__stack \x7b display: grid; gap: 12px; \x7d\n.rp__item \x7b padding: 10px 0; \x7d\n.rp__row \x7b display: flex; justify-content: space-between; gap: 10px; align-items: flex-start; \x7d\n.rp__rowSub \x7b margin-top: 2px; \x7d\n.rp__company, .rp__school \x7b\n  font-weight: 800; color: rgba(11, 18, 32, 0.9); font-size: calc(12pt * var(--scale));\n\x7d\n.rp__role, .rp__field \x7b\n  font-weight: 700; color: rgba(11, 18, 32, 0.82); font-size: calc(10.5pt * var(--scale));\n\x7d\n.rp__loc \x7b\n  color: rgba(11, 18, 32, 0.68);\n  font-weight: 700;\n  white-space: nowrap;\n  font-size: calc(9.5pt * var(--scale));\n\x7d\n.rp__dates \x7b\n  color: rgba(11, 18, 32, 0.6);\n  font-size: calc(9pt * var(--scale));\n  white-space: nowrap;\n  font-weight: 600;\n\x7d\n.rp__addr \x7b\n  color: rgba(11, 18, 32, 0.68);\n  font-weight: 600;\n  white-space: nowrap;\n  margin-top: 4px;\n  font-size: calc(9.5pt * var(--scale));\n\x7d\n.rp__muted \x7b color: rgba(11, 18, 32, 0.62); font-weight: 600; \x7d\n.rp__projLinks \x7b margin-top: 6px; font-size: calc(10pt * var(--scale)); font-weight: 700; \x7d\n.rp__link \x7b color: var(--primary); text-decoration: none; \x7d\n.rp__link:hover \x7b text-decoration: underline; \x7d\n.rp__linkSep \x7b color: rgba(11, 18, 32, 0.18); font-weight: 800; \x7d\n\n.rp__list \x7b\n  margin: 8px 0 0;\n  padding-left: 18px;\n  color: rgba(11, 18, 32, 0.78);\n  font-size: calc(10pt * var(--scale));\n  line-height: 1.5;\n\x7d\n\n.rp__skillsBlock \x7b display: grid; gap: 6px; \x7d\n.rp__skillLine \x7b color: rgba(11, 18, 32, 0.78); line-height: 1.5; \x7d\n.rp__skillCat \x7b font-weight: 800; color: rgba(11, 18, 32, 0.9); font-size: calc(11pt * var(--scale)); \x7d\n.rp__skillCat \x7b font-weight: 800; color: rgba(11, 18, 32, 0.9); font-size: calc(10.5pt * var(--scale)); \x7d\n.rp__skillItems \x7b color: rgba(11, 18, 32, 0.76); font-size: calc(10pt * var(--scale)); \x7d\n\n@page \x7b size: A4; margin: ") ++
    theme.page_margin_top_mm ++
    cs ("mm ") ++
    theme.page_margin_right_mm ++
    cs ("mm ") ++
    theme.page_margin_bottom_mm ++
    cs ("mm ") ++
    theme.page_margin_left_mm ++
    cs ("mm; \x7d\n@media print \x7b\n  .rp \x7b max-width: none; margin: 0; \x7d\n  body \x7b -webkit-print-color-adjust: exact; print-color-adjust: exact; \x7d\n  /* Allow long items (esp. Experience) to flow across pages */\n  .rp__item \x7b break-inside: auto; page-break-inside: auto; \x7d\n\n  /* Keep small header rows together */\n  .rp__sectionHead, .rp__row, .rp__rowSub \x7b break-inside: avoid; page-break-inside: avoid; \x7d\n\n  /* Prevent orphaned section headers at page bottom:\n     if the next element can't fit, move header to next page. */\n  .rp__sectionHead \x7b break-after: avoid; page-break-after: avoid; \x7d\n  .rp__sectionHead + * \x7b break-before: avoid; page-break-before: avoid; \x7d\n\n  /* Allow lists to continue, but don't split a single bullet */\n  .rp__list \x7b break-inside: auto; page-break-inside: auto; \x7d\n  .rp__list li \x7b break-inside: avoid; page-break-inside: avoid; \x7d\n\x7d")
/-- The Font Awesome stylesheet link of `render_resume_html`. -/
def faLink : Str :=
  cs ("<link rel=\"stylesheet\" href=\"https://cdnjs.cloudflare.com/ajax/libs/font-awesome/6.5.2/css/all.min.css\" referrerpolicy=\"no-referrer\" />")

/-- `resume_template_renderer.render_resume_html`: the document envelope
around the newline-joined non-empty fragments. -/
def render_resume_html (prof : ResumeStructured) (theme : TemplateTheme)
    (blocks : List TemplateBlock) : Str :=
  cs ("<!doctype html>\n<html lang=\"en\">\n  <head>\n    <meta charset=\"utf-8\" />\n    <meta name=\"viewport\" content=\"width=device-width, initial-scale=1\" />\n    ") ++
    faLink ++ cs ("\n    <style>") ++ _css theme ++
    cs ("</style>\n  </head>\n  <body>\n    <article class=\"rp\">\n      ") ++
    List.intercalate (cs ("\n")) (assembleHtmlFragments prof blocks) ++
    cs ("\n    </article>\n  </body>\n</html>\n")

end TemplateRenderer

/-! ### LaTeX template renderer (`resume_creator_overleaf.py`,
`render_latex_with_template` and its closures) -/

/-- Replace actual newline characters by `rep` (Python
`.replace("\n", r" \\ ")` in the LaTeX renderer is ordinary code, so the
pattern is a real newline). -/
def replaceNewline (rep : Str) : Str → Str
  | '\n' :: rest => rep ++ replaceNewline rep rest
  | c :: rest => c :: replaceNewline rep rest
  | [] => []

namespace CreatorOverleaf

/-- The `section` closure (`section` is a Lean keyword, hence the suffix):
strip the inner text; empty yields empty, otherwise the `\SectionHeader`
envelope. -/
def sectionTex (title : Str) (inner : Str) : Str :=
  if trimWS inner = [] then []
  else
    cs ("\\SectionHeader\x7b") ++ escLatex title ++ cs ("\x7d\n") ++ trimWS inner ++ cs ("\n")

/-- The `render_summary` closure. -/
def render_summary (prof : ResumeStructured) : Str :=
  if trimWS (prof.professional_summary.getD []) = [] then []
  else
    sectionTex (cs ("Summary"))
      (cs ("\\RPText\x7b") ++
        replaceNewline (cs (" \\\\ ")) (escLatex (prof.professional_summary.getD [])) ++
        cs ("\x7d"))

/-- One line of the `render_skills` closure (`none` when the group has no
non-blank skills — unlike the HTML renderer, a bare category is skipped). -/
def skillLineTex (grp : SkillCategory) : Option Str :=
  let items := (grp.skills.filter (fun s => trimWS s ≠ [])).map trimWS
  if items = [] then none
  else
    let cat := escLatex (grp.category.getD [])
    let itemsTxt := escLatex (List.intercalate (cs (", ")) items)
    if cat ≠ [] then
      some (cs ("\\RPSkillCat\x7b") ++ cat ++ cs (":\x7d \\RPSkillItems\x7b") ++ itemsTxt ++
        cs ("\x7d"))
    else some (cs ("\\RPSkillItems\x7b") ++ itemsTxt ++ cs ("\x7d"))

/-- The `render_skills` closure. -/
def render_skills (prof : ResumeStructured) : Str :=
  if prof.skills.isEmpty then []
  else
    let lines := prof.skills.filterMap skillLineTex
    if lines = [] then []
    else sectionTex (cs ("Skills")) (List.intercalate (cs (" \\\\ ")) lines)

/-- The chunks one experience entry contributes in `render_experience`. -/
def expChunksTex (e : ExperienceItem) : List Str :=
  let company := escLatex (if optTruthy e.company then e.company.getD [] else cs ("—"))
  let addr := escLatex (e.company_address.getD [])
  let role := escLatex (e.title.getD [])
  let dates := escLatex (_join_date e.start_date e.end_date)
  let summary := replaceNewline (cs (" \\\\ ")) (escLatex (e.summary.getD []))
  let resp := (e.responsibilities.filter (fun r => trimWS r ≠ [])).map trimWS
  [cs ("\\begin\x7btabularx\x7d\x7b\\linewidth\x7d\x7bX r\x7d\\RPCompany\x7b") ++ company ++
    cs ("\x7d & \\RPAddr\x7b") ++ addr ++ cs ("\x7d \\\\\\end\x7btabularx\x7d"),
   cs ("\\begin\x7btabularx\x7d\x7b\\linewidth\x7d\x7bX r\x7d\\RPRole\x7b") ++ role ++
    cs ("\x7d & \\RPDates\x7b") ++ dates ++ cs ("\x7d \\\\\\end\x7btabularx\x7d")] ++
  (if summary ≠ [] then [cs ("\\RPText\x7b") ++ summary ++ cs ("\x7d")] else []) ++
  (if resp ≠ [] then
    cs ("\\begin\x7bitemize\x7d") ::
      (resp.map (fun r =>
        cs ("\\item \\RPListText\x7b") ++ _escape_latex_with_bold_markers (some r) ++
          cs ("\x7d"))) ++
      [cs ("\\end\x7bitemize\x7d")]
  else []) ++
  [cs ("\\vspace\x7b6pt\x7d")]

/-- The `render_experience` closure. -/
def render_experience (prof : ResumeStructured) : Str :=
  if prof.experience.isEmpty then []
  else
    sectionTex (cs ("Experience"))
      (List.intercalate (cs ("\n")) (prof.experience.flatMap expChunksTex))

/-- The chunks one education entry contributes in `render_education`. -/
def eduChunksTex (e : EducationItem) : List Str :=
  let inst := escLatex (if optTruthy e.institution then e.institution.getD [] else cs ("—"))
  let dates := escLatex (_join_date e.start_date e.end_date)
  let field := List.intercalate (cs (" · "))
    (([e.degree.getD [], e.field_of_study.getD []]).filter (fun p => trimWS p ≠ []))
  let fieldH := escLatex field
  let loc := escLatex (e.location.getD [])
  let notes := replaceNewline (cs (" \\\\ ")) (escLatex (e.notes.getD []))
  [cs ("\\begin\x7btabularx\x7d\x7b\\linewidth\x7d\x7bX r\x7d\\RPCompany\x7b") ++ inst ++
    cs ("\x7d & \\RPDates\x7b") ++ dates ++ cs ("\x7d \\\\\\end\x7btabularx\x7d"),
   cs ("\\begin\x7btabularx\x7d\x7b\\linewidth\x7d\x7bX r\x7d\\RPRole\x7b") ++ fieldH ++
    cs ("\x7d & \\RPAddr\x7b") ++ loc ++ cs ("\x7d \\\\\\end\x7btabularx\x7d")] ++
  (if notes ≠ [] then [cs ("\\RPText\x7b") ++ notes ++ cs ("\x7d")] else []) ++
  [cs ("\\vspace\x7b6pt\x7d")]

/-- The `render_education` closure. -/
def render_education (prof : ResumeStructured) : Str :=
  if prof.education.isEmpty then []
  else
    sectionTex (cs ("Education"))
      (List.intercalate (cs ("\n")) (prof.education.flatMap eduChunksTex))

/-- The chunks one project contributes in `render_projects`.
`getattr(p, "github", None)` and `getattr(p, "demo", None)` are always
`None` (`ProjectItem` defines neither field), so only `p.link` yields a
link — emitted through `_normalize_http_url`. -/
def projChunksTex (p : ProjectItem) : List Str :=
  let name := escLatex (if optTruthy p.name then p.name.getD [] else cs ("—"))
  let desc := replaceNewline (cs (" \\\\ ")) (escLatex (p.description.getD []))
  let tech := (p.technologies.filter (fun t => trimWS t ≠ [])).map trimWS
  let github : Str := []
  let demo := trimWS (p.link.getD [])
  let linkBits : List Str :=
    (if github ≠ [] then
      [cs ("\\href\x7b") ++ escLatex (_normalize_http_url (some github)) ++
        cs ("\x7d\x7b\\textcolor\x7bPrimary\x7d\x7bGitHub\x7d\x7d")] else []) ++
    (if demo ≠ [] then
      [cs ("\\href\x7b") ++ escLatex (_normalize_http_url (some demo)) ++
        cs ("\x7d\x7b\\textcolor\x7bPrimary\x7d\x7bDemo\x7d\x7d")] else [])
  [cs ("\\RPCompany\x7b") ++ name ++ cs ("\x7d")] ++
  (if desc ≠ [] then [cs ("\\RPText\x7b") ++ desc ++ cs ("\x7d")] else []) ++
  (if tech ≠ [] then
    [cs ("\\RPText\x7b\\textcolor\x7bblack!60\x7d\x7bTech:\x7d ") ++
      escLatex (List.intercalate (cs (", ")) tech) ++ cs ("\x7d")] else []) ++
  (if linkBits ≠ [] then
    [cs ("\\RPText\x7b") ++ List.intercalate (cs (" $|$ ")) linkBits ++ cs ("\x7d")] else []) ++
  [cs ("\\vspace\x7b6pt\x7d")]

/-- The `render_projects` closure. -/
def render_projects (prof : ResumeStructured) : Str :=
  if prof.projects.isEmpty then []
  else
    sectionTex (cs ("Projects"))
      (List.intercalate (cs ("\n")) (prof.projects.flatMap projChunksTex))

/-- The `renderers` dict of `render_latex_with_template`
(each entry is a closure over `prof`). -/
def latexRendererFor (prof : ResumeStructured) (t : Str) : Option Str :=
  if t = cs ("header") then some (render_header prof)
  else if t = cs ("summary") then some (render_summary prof)
  else if t = cs ("skills") then some (render_skills prof)
  else if t = cs ("experience") then some (render_experience prof)
  else if t = cs ("education") then some (render_education prof)
  else if t = cs ("projects") then some (render_projects prof)
  else none

/-- The assembly loop of `render_latex_with_template`: skip unregistered
types; strip each rendered fragment; keep the stripped fragment when
non-empty. -/
def assembleLatexFragments (prof : ResumeStructured) : List TemplateBlock → List Str
  | [] => []
  | b :: rest =>
    match latexRendererFor prof b.type with
    | none => assembleLatexFragments prof rest
    | some out =>
      if trimWS out = [] then assembleLatexFragments prof rest
      else trimWS out :: assembleLatexFragments prof rest

/-- The preamble f-string of `render_latex_with_template`, with
`primary_hex = _hex6(theme.primary_color)` and the margins interpolated. -/
def latexPreamble (theme : TemplateTheme) : Str :=
  cs ("\\documentclass[10pt,a4paper]\x7barticle\x7d\n\\usepackage[utf8]\x7binputenc\x7d\n\\usepackage[T1]\x7bfontenc\x7d\n\\usepackage\x7bgeometry\x7d\n\\usepackage\x7bxcolor\x7d\n\\usepackage[hidelinks]\x7bhyperref\x7d\n\\usepackage\x7benumitem\x7d\n\\usepackage\x7btabularx\x7d\n\\usepackage\x7btikz\x7d\n\\usepackage\x7bragged2e\x7d\n\\usepackage\x7bulem\x7d\n\\geometry\x7btop=") ++
    theme.page_margin_top_mm ++
    cs ("mm,right=") ++
    theme.page_margin_right_mm ++
    cs ("mm,bottom=") ++
    theme.page_margin_bottom_mm ++
    cs ("mm,left=") ++
    theme.page_margin_left_mm ++
    cs ("mm\x7d\n\n\\definecolor\x7bPrimary\x7d\x7bHTML\x7d\x7b") ++
    (_hex6 theme.primary_color) ++
    cs ("\x7d\n\n\\setlength\x7b\\parindent\x7d\x7b0pt\x7d\n\\setlength\x7b\\parskip\x7d\x7b0pt\x7d\n\\renewcommand\x7b\\familydefault\x7d\x7b\\sfdefault\x7d\n\n% Font sizes (match preview/pdf)\n\\newcommand\x7b\\RPText\x7d[1]\x7b\x7b\\fontsize\x7b10pt\x7d\x7b14pt\x7d\\selectfont #1\x7d\x7d\n\\newcommand\x7b\\RPContact\x7d[1]\x7b\x7b\\fontsize\x7b8.8pt\x7d\x7b11pt\x7d\\selectfont #1\x7d\x7d\n\\newcommand\x7b\\RPSubTitle\x7d[1]\x7b\x7b\\fontsize\x7b11pt\x7d\x7b13pt\x7d\\selectfont #1\x7d\x7d\n\\newcommand\x7b\\RPSkillCat\x7d[1]\x7b\x7b\\fontsize\x7b10.5pt\x7d\x7b12.5pt\x7d\\selectfont \\textbf\x7b#1\x7d\x7d\x7d\n\\newcommand\x7b\\RPSkillItems\x7d[1]\x7b\x7b\\fontsize\x7b10pt\x7d\x7b12pt\x7d\\selectfont #1\x7d\x7d\n\\newcommand\x7b\\RPRole\x7d[1]\x7b\x7b\\fontsize\x7b10.5pt\x7d\x7b12.5pt\x7d\\selectfont #1\x7d\x7d\n\\newcommand\x7b\\RPCompany\x7d[1]\x7b\x7b\\fontsize\x7b12pt\x7d\x7b14pt\x7d\\selectfont \\textbf\x7b#1\x7d\x7d\x7d\n\\newcommand\x7b\\RPAddr\x7d[1]\x7b\x7b\\fontsize\x7b9.5pt\x7d\x7b11pt\x7d\\selectfont #1\x7d\x7d\n\\newcommand\x7b\\RPDates\x7d[1]\x7b\x7b\\fontsize\x7b9pt\x7d\x7b11pt\x7d\\selectfont #1\x7d\x7d\n\\newcommand\x7b\\RPListText\x7d[1]\x7b\x7b\\fontsize\x7b10pt\x7d\x7b12pt\x7d\\selectfont #1\x7d\x7d\n\n\\newcommand\x7b\\SectionHeader\x7d[1]\x7b%\n  \\vspace\x7b10pt\x7d%\n  \\begin\x7bcenter\x7d%\n  \\begin\x7btikzpicture\x7d\n    \\draw[Primary, dotted, line width=0.4pt] (0,0) -- (\\linewidth,0);\n    \\node[fill=white, inner xsep=12pt] at (0.5\\linewidth,0) \x7b\\textcolor\x7bPrimary\x7d\x7b\\fontsize\x7b12pt\x7d\x7b14pt\x7d\\selectfont\\bfseries\\MakeUppercase\x7b#1\x7d\x7d\x7d;\n  \\end\x7btikzpicture\x7d%\n  \\end\x7bcenter\x7d%\n  \\vspace\x7b4pt\x7d%\n\x7d\n\n% List spacing similar to preview\n\\setlist[itemize]\x7bleftmargin=18pt, topsep=4pt, itemsep=2pt, parsep=0pt, partopsep=0pt\x7d\n\n\\begin\x7bdocument\x7d\n")

/-- `resume_creator_overleaf.render_latex_with_template`: preamble, the
newline-joined non-empty stripped fragments, and the document close. -/
def render_latex_with_template (prof : ResumeStructured) (theme : TemplateTheme)
    (blocks : List TemplateBlock) : Str :=
  latexPreamble theme ++
    List.intercalate (cs ("\n")) (assembleLatexFragments prof blocks) ++
    cs ("\n\\end\x7bdocument\x7d\n")

end CreatorOverleaf

theorem assembleHtmlFragments_eq_filterMap (prof : ResumeStructured) :
    ∀ blocks : List TemplateBlock,
    TemplateRenderer.assembleHtmlFragments prof blocks =
      blocks.filterMap (fun b =>
        (TemplateRenderer._RENDERERS b.type).bind (fun fn =>
          if trimWS (fn prof b) = [] then none else some (fn prof b))) := by
  intro blocks
  induction blocks with
  | nil => rfl
  | cons b rest ih =>
    rcases h : TemplateRenderer._RENDERERS b.type with _ | fn
    · simp only [TemplateRenderer.assembleHtmlFragments, h, List.filterMap_cons,
        Option.none_bind]
      exact ih
    · by_cases hstrip : trimWS (fn prof b) = []
      · simp only [TemplateRenderer.assembleHtmlFragments, h, List.filterMap_cons,
          Option.some_bind, hstrip, if_pos rfl, if_true]
        exact ih
      · simp only [TemplateRenderer.assembleHtmlFragments, h, List.filterMap_cons,
          Option.some_bind, if_neg hstrip]
        rw [ih]

theorem assembleLatexFragments_eq_filterMap (prof : ResumeStructured) :
    ∀ blocks : List TemplateBlock,
    CreatorOverleaf.assembleLatexFragments prof blocks =
      blocks.filterMap (fun b =>
        (CreatorOverleaf.latexRendererFor prof b.type).bind (fun out =>
          if trimWS out = [] then none else some (trimWS out))) := by
  intro blocks
  induction blocks with
  | nil => rfl
  | cons b rest ih =>
    rcases h : CreatorOverleaf.latexRendererFor prof b.type with _ | out
    · simp only [CreatorOverleaf.assembleLatexFragments, h, List.filterMap_cons,
        Option.none_bind]
      exact ih
    · by_cases hstrip : trimWS out = []
      · simp only [CreatorOverleaf.assembleLatexFragments, h, List.filterMap_cons,
          Option.some_bind, hstrip, if_pos rfl, if_true]
        exact ih
      · simp only [CreatorOverleaf.assembleLatexFragments, h, List.filterMap_cons,
          Option.some_bind, if_neg hstrip]
        rw [ih]

/-- C3.  Both document assemblers produce exactly the format envelope around
the newline-joined sequence, in block-list order, of the fragments returned
by the renderer registered for each block's type, keeping only fragments that
are non-empty after whitespace-stripping (the HTML assembler keeps the
fragment as returned, the LaTeX assembler keeps it stripped); blocks with no
registered renderer contribute nothing, and no error is raised (the
assemblers are total functions). -/
theorem c3_document_assembly (prof : ResumeStructured) (theme : TemplateTheme)
    (blocks : List TemplateBlock) :
    TemplateRenderer.render_resume_html prof theme blocks =
      cs ("<!doctype html>\n<html lang=\"en\">\n  <head>\n    <meta charset=\"utf-8\" />\n    <meta name=\"viewport\" content=\"width=device-width, initial-scale=1\" />\n    ") ++
        TemplateRenderer.faLink ++ cs ("\n    <style>") ++ TemplateRenderer._css theme ++
        cs ("</style>\n  </head>\n  <body>\n    <article class=\"rp\">\n      ") ++
        List.intercalate (cs ("\n")) (blocks.filterMap (fun b =>
          (TemplateRenderer._RENDERERS b.type).bind (fun fn =>
            if trimWS (fn prof b) = [] then none else some (fn prof b)))) ++
        cs ("\n    </article>\n  </body>\n</html>\n") ∧
    CreatorOverleaf.render_latex_with_template prof theme blocks =
      CreatorOverleaf.latexPreamble theme ++
        List.intercalate (cs ("\n")) (blocks.filterMap (fun b =>
          (CreatorOverleaf.latexRendererFor prof b.type).bind (fun out =>
            if trimWS out = [] then none else some (trimWS out)))) ++
        cs ("\n\\end\x7bdocument\x7d\n") := by
  constructor
  · rw [TemplateRenderer.render_resume_html, assembleHtmlFragments_eq_filterMap]
  · rw [CreatorOverleaf.render_latex_with_template, assembleLatexFragments_eq_filterMap]

/-- C5 (amended).  `_normalize_http_url` (shared text in the HTML and LaTeX
back ends) returns empty for blank input, keeps a value whose lowercased form
already starts with `http://` or `https://`, and otherwise prepends
`https://` to the trimmed value.  It is applied to the contact
LinkedIn/GitHub links of the HTML and LaTeX headers and to the LaTeX
back end's project links — but the HTML back end's project links are emitted
with the stored value as the href, unnormalised (see the counterexample). -/
theorem c5_url_scheme (v : Option Str) (link : Str) :
    (trimWS (v.getD []) = [] → _normalize_http_url v = []) ∧
    (((cs ("http://")).isPrefixOf (pyLower (trimWS (v.getD []))) = true ∨
      (cs ("https://")).isPrefixOf (pyLower (trimWS (v.getD []))) = true) →
      _normalize_http_url v = trimWS (v.getD [])) ∧
    (¬ ((cs ("http://")).isPrefixOf (pyLower (trimWS (v.getD []))) = true ∨
        (cs ("https://")).isPrefixOf (pyLower (trimWS (v.getD []))) = true) →
      trimWS (v.getD []) ≠ [] →
      _normalize_http_url v = cs ("https://") ++ trimWS (v.getD [])) ∧
    (trimWS link ≠ [] →
      CreatorOverleaf.projChunksTex { link := some link } =
        [cs ("\\RPCompany\x7b—\x7d"),
         cs ("\\RPText\x7b\\href\x7b") ++
           escLatex (_normalize_http_url (some (trimWS link))) ++
           cs ("\x7d\x7b\\textcolor\x7bPrimary\x7d\x7bDemo\x7d\x7d\x7d"),
         cs ("\\vspace\x7b6pt\x7d")]) ∧
    TemplateRenderer.contactItemHtml true (cs ("linkedin")) (cs ("linkedin.com/in/ada")) =
      cs ("<span class=\"rp__contactItem\">\n  <span class=\"rp__contactIcon\"><i class=\"fa-brands fa-linkedin-in\" aria-hidden=\"true\"></i></span>\n  <a class=\"rp__contactLink\" href=\"https://linkedin.com/in/ada\">LinkedIn</a>\n  \n</span>") := by
  refine ⟨?_, ?_, ?_, ?_, by decide⟩
  · intro h
    simp only [_normalize_http_url]
    rw [if_pos h]
  · intro h
    simp only [_normalize_http_url]
    by_cases hnil : trimWS (v.getD []) = []
    · rw [if_pos hnil, hnil]
    · rw [if_neg hnil, if_pos h]
  · intro h hnil
    simp only [_normalize_http_url]
    rw [if_neg hnil, if_neg h]
  · intro h
    simp only [CreatorOverleaf.projChunksTex, Option.getD_some]
    rw [if_pos h]
    simp [List.intercalate, List.intersperse, List.append_assoc]
    exact ⟨by decide, by rfl⟩

/-- Witness for C5: a bare domain gets the scheme prepended, and the LaTeX
project link renders the normalised URL. -/
theorem c5_url_scheme_witness :
    _normalize_http_url (some (cs ("github.com/x"))) =
      cs ("https://") ++ trimWS ((some (cs ("github.com/x"))).getD []) ∧
    CreatorOverleaf.projChunksTex { link := some (cs ("github.com/x")) } =
      [cs ("\\RPCompany\x7b—\x7d"),
       cs ("\\RPText\x7b\\href\x7b") ++
         escLatex (_normalize_http_url (some (trimWS (cs ("github.com/x"))))) ++
         cs ("\x7d\x7b\\textcolor\x7bPrimary\x7d\x7bDemo\x7d\x7d\x7d"),
       cs ("\\vspace\x7b6pt\x7d")] :=
  ⟨(c5_url_scheme (some (cs ("github.com/x"))) []).2.2.1 (by decide) (by decide),
   (c5_url_scheme none (cs ("github.com/x"))).2.2.2.1 (by decide)⟩

/-- Counterexample to C5 as stated: the HTML back end's project renderer
emits the stored link value as the href without scheme normalisation —
`github.com/x` appears verbatim and no `https://` occurs anywhere in the
fragment, although `_normalize_http_url` would have produced one. -/
theorem c5_url_scheme_counterexample :
    containsSub (cs ("href=\"github.com/x\""))
      (TemplateRenderer._render_projects
        { projects := [{ name := some (cs ("P")), link := some (cs ("github.com/x")) }] }
        { type := cs ("projects") }) = true ∧
    containsSub (cs ("https://"))
      (TemplateRenderer._render_projects
        { projects := [{ name := some (cs ("P")), link := some (cs ("github.com/x")) }] }
        { type := cs ("projects") }) = false ∧
    _normalize_http_url (some (cs ("github.com/x"))) = cs ("https://github.com/x") := by
  decide

/-! ### Vector-PDF renderer (`resume_creator_pdf.py`)

ReportLab flowables are embedded as an inductive of their kind and text
content; paragraph style objects and table column widths are numeric layout
detail no claim inspects, so styles are carried as their names and `Table`
rows as their cell texts. -/

namespace CreatorPdf

/-- `resume_creator_pdf._esc_rl`: minimal escaping for ReportLab Paragraph
markup (three sequential non-interfering replaces, then strip). -/
def _esc_rl (s : Str) : Str :=
  trimWS (s.flatMap (fun c =>
    if c = '&' then cs ("&amp;")
    else if c = '<' then cs ("&lt;")
    else if c = '>' then cs ("&gt;")
    else [c]))

/-- Modelled from reportlab `colors.HexColor("#00BBF9")` via the hex digits:
the module-level constant `MAIN_COLOR`, fixed regardless of any theme (the
PDF back end takes no theme input at all). -/
def MAIN_COLOR : Nat × Nat × Nat :=
  ((hexVal '0').getD 0 * 16 + (hexVal '0').getD 0,
   (hexVal 'B').getD 0 * 16 + (hexVal 'B').getD 0,
   (hexVal 'F').getD 0 * 16 + (hexVal '9').getD 0)

inductive Flowable where
  | resumeHeader (prof : ResumeStructured)
  | spacer (w h : Nat)
  | sectionHeader (title : Str)
  | paragraph (text : Str) (style : Str)
  | table (cells : List Str)
deriving DecidableEq

/-- The flowables one skill group contributes (groups with an empty skills
list are skipped; the joined text keeps raw entries whose strip is
non-empty). -/
def skillGroupFlowables (group : SkillCategory) : List Flowable :=
  if group.skills.isEmpty then []
  else
    let category := trimWS (group.category.getD [])
    let skillsText :=
      List.intercalate (cs (", ")) (group.skills.filter (fun s => trimWS s ≠ []))
    if category ≠ [] then
      [Flowable.paragraph (cs ("<b>") ++ category ++ cs (":</b> ") ++ skillsText)
        (cs ("body_small"))]
    else [Flowable.paragraph skillsText (cs ("body_small"))]

/-- The flowables one experience entry contributes. -/
def expFlowables (e : ExperienceItem) : List Flowable :=
  let company := if trimWS (e.company.getD []) = [] then cs ("—") else trimWS (e.company.getD [])
  let role := trimWS (e.title.getD [])
  let dateStr := _join_date e.start_date e.end_date
  [Flowable.table [company, []], Flowable.spacer 1 2, Flowable.table [role, dateStr]] ++
  (if trimWS (e.summary.getD []) ≠ [] then
    [Flowable.paragraph (replaceNewline (cs ("<br/>")) (e.summary.getD [])) (cs ("body"))]
  else []) ++
  (if ¬ e.responsibilities.isEmpty then
    (let bullets := List.intercalate (cs ("<br/>"))
      ((e.responsibilities.filter (fun r => trimWS r ≠ [])).map
        (fun r => cs ("• ") ++ trimWS r))
     if bullets ≠ [] then [Flowable.paragraph bullets (cs ("body"))] else [])
  else []) ++
  [Flowable.spacer 1 10]

/-- The flowables one education entry contributes. -/
def eduFlowables (ed : EducationItem) : List Flowable :=
  let institution :=
    if trimWS (ed.institution.getD []) = [] then cs ("—") else trimWS (ed.institution.getD [])
  let dateStr := _join_date ed.start_date ed.end_date
  let degreeField := List.intercalate (cs (" · "))
    (([trimWS (ed.degree.getD []), trimWS (ed.field_of_study.getD [])]).filter (· ≠ []))
  let loc := trimWS (ed.location.getD [])
  [Flowable.table [institution, dateStr], Flowable.spacer 1 2,
   Flowable.table [degreeField, loc]] ++
  (if trimWS (ed.notes.getD []) ≠ [] then
    [Flowable.paragraph (replaceNewline (cs ("<br/>")) (ed.notes.getD [])) (cs ("body"))]
  else []) ++
  [Flowable.spacer 1 10]

/-- The flowables one project contributes.  As in the other back ends,
`getattr(p, "github", None)` and `getattr(p, "demo", None)` are always
`None`, so only `p.link` can yield a (Demo) link, and its href goes through
`_esc_rl` only — no scheme normalisation. -/
def projFlowables (p : ProjectItem) : List Flowable :=
  let name := if trimWS (p.name.getD []) = [] then cs ("—") else trimWS (p.name.getD [])
  let github : Str := []
  let demo := trimWS (p.link.getD [])
  [Flowable.paragraph name (cs ("bold"))] ++
  (if trimWS (p.description.getD []) ≠ [] then
    [Flowable.paragraph (replaceNewline (cs ("<br/>")) (p.description.getD [])) (cs ("body"))]
  else []) ++
  (if ¬ p.technologies.isEmpty then
    (let tech := List.intercalate (cs (", "))
      (p.technologies.filter (fun t => trimWS t ≠ []))
     if tech ≠ [] then
      [Flowable.paragraph (cs ("<b>Tech:</b> ") ++ tech) (cs ("body_small"))]
     else [])
  else []) ++
  (let linkBits : List Str :=
    (if github ≠ [] then
      [cs ("<link href=\"") ++ _esc_rl github ++ cs ("\">GitHub</link>")] else []) ++
    (if demo ≠ [] then
      [cs ("<link href=\"") ++ _esc_rl demo ++ cs ("\">Demo</link>")] else [])
   if linkBits ≠ [] then
    [Flowable.paragraph (List.intercalate (cs (" | ")) linkBits) (cs ("body_small"))]
   else []) ++
  [Flowable.spacer 1 10]

/-- `resume_creator_pdf._resume_to_flowables` (the `doc_width` argument only
feeds table column widths, which are abstracted away). -/
def _resume_to_flowables (prof : ResumeStructured) : List Flowable :=
  [Flowable.resumeHeader prof, Flowable.spacer 1 12] ++
  (if trimWS (prof.professional_summary.getD []) ≠ [] then
    [Flowable.sectionHeader (cs ("Summary")), Flowable.spacer 1 6,
     Flowable.paragraph (replaceNewline (cs ("<br/>")) (prof.professional_summary.getD []))
       (cs ("body")),
     Flowable.spacer 1 10]
  else []) ++
  (if ¬ prof.skills.isEmpty then
    [Flowable.sectionHeader (cs ("Skills")), Flowable.spacer 1 6] ++
      prof.skills.flatMap skillGroupFlowables ++ [Flowable.spacer 1 10]
  else []) ++
  (if ¬ prof.experience.isEmpty then
    [Flowable.sectionHeader (cs ("Experience")), Flowable.spacer 1 6] ++
      prof.experience.flatMap expFlowables
  else []) ++
  (if ¬ prof.education.isEmpty then
    [Flowable.sectionHeader (cs ("Education")), Flowable.spacer 1 6] ++
      prof.education.flatMap eduFlowables
  else []) ++
  (if ¬ prof.projects.isEmpty then
    [Flowable.sectionHeader (cs ("Projects")), Flowable.spacer 1 6] ++
      prof.projects.flatMap projFlowables
  else [])

end CreatorPdf

/-- A record with every optional field absent. -/
def emptyResume : ResumeStructured := {}

/-- One block of each of the six registered types, in canonical order. -/
def blocksAll : List TemplateBlock :=
  [{ type := cs ("header") }, { type := cs ("summary") }, { type := cs ("skills") },
   { type := cs ("experience") }, { type := cs ("education") }, { type := cs ("projects") }]

/-- The header fragment the HTML renderer emits for an empty record: the
em-dash placeholder name, never empty. -/
def emptyHeaderHtml : Str :=
  cs ("<header class=\"rp__header\">\n  <div class=\"rp__headerBlock\">\n    <div class=\"rp__headerMain\">—</div>\n    \n    \n  </div>\n</header>")

/-- C7 (amended).  For the record with every optional field absent: each
per-block renderer other than the header returns empty output in the HTML
and LaTeX back ends; the HTML header renders the em-dash placeholder (it is
never empty), the LaTeX header contributes only whitespace and is dropped at
assembly, and the PDF flowables consist of the always-present header flowable
and a spacer; no assembled document contains a section envelope. -/
theorem c7_empty_record :
    [TemplateRenderer._render_summary emptyResume { type := cs ("summary") },
     TemplateRenderer._render_skills emptyResume { type := cs ("skills") },
     TemplateRenderer._render_experience emptyResume { type := cs ("experience") },
     TemplateRenderer._render_education emptyResume { type := cs ("education") },
     TemplateRenderer._render_projects emptyResume { type := cs ("projects") }] =
      [[], [], [], [], []] ∧
    TemplateRenderer._render_header emptyResume { type := cs ("header") } = emptyHeaderHtml ∧
    emptyHeaderHtml ≠ [] ∧
    TemplateRenderer.assembleHtmlFragments emptyResume blocksAll = [emptyHeaderHtml] ∧
    containsSub (cs ("<section")) emptyHeaderHtml = false ∧
    CreatorOverleaf.render_header emptyResume = cs ("\n") ∧
    trimWS (CreatorOverleaf.render_header emptyResume) = [] ∧
    [CreatorOverleaf.render_summary emptyResume, CreatorOverleaf.render_skills emptyResume,
     CreatorOverleaf.render_experience emptyResume,
     CreatorOverleaf.render_education emptyResume,
     CreatorOverleaf.render_projects emptyResume] = [[], [], [], [], []] ∧
    CreatorOverleaf.assembleLatexFragments emptyResume blocksAll = [] ∧
    CreatorOverleaf.render_latex_with_template emptyResume {} blocksAll =
      CreatorOverleaf.latexPreamble {} ++ cs ("\n\\end\x7bdocument\x7d\n") ∧
    CreatorPdf._resume_to_flowables emptyResume =
      [CreatorPdf.Flowable.resumeHeader emptyResume, CreatorPdf.Flowable.spacer 1 12] := by
  refine ⟨rfl, rfl, by decide, rfl, rfl, rfl, rfl, rfl, rfl, rfl, rfl⟩

/-- Counterexample to C7 as stated: the HTML header renderer does not return
empty output for the all-absent record — it emits a placeholder header block
containing the em dash. -/
theorem c7_empty_record_counterexample :
    TemplateRenderer._render_header emptyResume { type := cs ("header") } ≠ [] ∧
    TemplateRenderer._render_header emptyResume { type := cs ("header") } = emptyHeaderHtml ∧
    containsSub (cs ("—")) emptyHeaderHtml = true :=
  ⟨by decide, rfl, rfl⟩

/-- C8 (amended).  For the 3-digit shorthand theme colour `#fff`: only the
LaTeX back end expands it to 6-digit form (`_hex6` yields `FFFFFF`, which is
what its envelope's `\definecolor` carries); the HTML back end's envelope
interpolates the shorthand `#fff` into its `--primary` token unexpanded; and
the vector-PDF back end ignores the theme entirely, using the fixed constant
colour `#00BBF9` = (0, 187, 249). -/
theorem c8_hex_shorthand :
    CreatorOverleaf._hex6 (cs ("#fff")) = cs ("FFFFFF") ∧
    ((CreatorOverleaf.latexPreamble { primary_color := cs ("#fff") }).drop 326).take 35 =
      cs ("\\definecolor\x7bPrimary\x7d\x7bHTML\x7d\x7bFFFFFF\x7d") ∧
    ((TemplateRenderer._css { primary_color := cs ("#fff") }).drop 387).take 16 =
      cs ("--primary: #fff;") ∧
    CreatorPdf.MAIN_COLOR = (0, 187, 249) :=
  ⟨rfl, rfl, rfl, rfl⟩

/-- Counterexample to C8 as stated: with `primary_color = "#fff"` the HTML
envelope keeps the 3-digit shorthand in its `--primary` token — the token at
offset 387 of the style sheet reads `--primary: #fff;` followed by a newline,
so no expansion happened — and the PDF back end's colour is the fixed
`(0, 187, 249)`, not an expansion of `#fff`; only the LaTeX back end expands
the shorthand. -/
theorem c8_hex_shorthand_counterexample :
    ((TemplateRenderer._css { primary_color := cs ("#fff") }).drop 387).take 17 =
      cs ("--primary: #fff;\n") ∧
    CreatorPdf.MAIN_COLOR ≠ (255, 255, 255) ∧
    CreatorOverleaf._hex6 (cs ("#fff")) = cs ("FFFFFF") :=
  ⟨rfl, by decide, rfl⟩
